import Mathlib

/-!
Shallow embedding of the Athena chess engine core (bitboard move generator,
Zobrist hashing, tapered evaluation and negamax search) together with proofs
about the behaviour of its operations.  Machine integers are modelled by
`Nat` with explicit reduction modulo `2 ^ 64` where 64-bit wrap-around
matters, and by `Int` where the C code computes with signed `int` scores.
Functions from headers that are not part of the tree (`bit.h`, `move.h`,
`rng.c`) are modelled from the specification and marked as such.
-/

namespace Athena

/-! ## Bit primitives

`bit.h` is not in the tree; these are modelled from the spec: popcount,
bit-scan forward/reverse and pop-LSB over 64-bit words.  The recursions are
structural over an explicit 64-step bound so that all definitions reduce in
the kernel. -/

def mask64 (n : Nat) : Nat := n % 2 ^ 64

/-- 64-bit complement, `~bb` on a `u64`. -/
def compl64 (bb : Nat) : Nat := 0xffffffffffffffff ^^^ bb

/-- Two's-complement negation, `-bb` on a `u64`. -/
def neg64 (bb : Nat) : Nat := (2 ^ 64 - bb) % 2 ^ 64

def popcntAux : Nat → Nat → Nat
  | 0, _ => 0
  | fuel + 1, n => n % 2 + popcntAux fuel (n / 2)

/-- Number of set bits of a 64-bit word. -/
def popcnt (n : Nat) : Nat := popcntAux 64 n

def ls1bAux : Nat → Nat → Nat
  | 0, _ => 0
  | fuel + 1, n => if n % 2 = 1 then 0 else 1 + ls1bAux fuel (n / 2)

/-- Bit-scan forward: index of the least significant set bit.  The C
function is undefined on 0; this model returns 64 there. -/
def get_ls1b (n : Nat) : Nat := ls1bAux 64 n

def ms1bAux : Nat → Nat → Nat
  | 0, _ => 0
  | fuel + 1, n => if n < 2 then 0 else 1 + ms1bAux fuel (n / 2)

/-- Bit-scan reverse: index of the most significant set bit. -/
def get_ms1b (n : Nat) : Nat := ms1bAux 64 n

def bitSquaresAux : Nat → Nat → List Nat
  | 0, _ => []
  | fuel + 1, bb =>
    if bb = 0 then [] else get_ls1b bb :: bitSquaresAux fuel (bb &&& (bb - 1))

/-- The indices of the set bits of a bitboard in LSB-to-MSB order; this is
the order of the C loops `while (bb) { sq = unset_ls1b(&bb); ... }`. -/
def bitSquares (bb : Nat) : List Nat := bitSquaresAux 64 bb

/-! ## Colors, piece types, pieces, squares (pos.h constants and the
helpers at the bottom of pos.c) -/

def COLOR_WHITE : Nat := 0
def COLOR_BLACK : Nat := 1

/-- The C code negates a color with `!c`. -/
def opp (c : Nat) : Nat := 1 - c

def PIECE_TYPE_PAWN : Nat := 0
def PIECE_TYPE_KNIGHT : Nat := 1
def PIECE_TYPE_BISHOP : Nat := 2
def PIECE_TYPE_ROOK : Nat := 3
def PIECE_TYPE_QUEEN : Nat := 4
def PIECE_TYPE_KING : Nat := 5
def PIECE_NONE : Nat := 12

def create_piece (pt c : Nat) : Nat := (pt <<< 1) ||| c

def get_piece_type (p : Nat) : Nat := p >>> 1

def get_piece_color (p : Nat) : Nat := p &&& 1

def CASTLING_SIDE_QUEEN : Nat := 0
def CASTLING_SIDE_KING : Nat := 1

def file_rank_to_square (f r : Nat) : Nat := 8 * r + f

def get_file (sq : Nat) : Nat := sq % 8

def get_rank (sq : Nat) : Nat := sq / 8

/-- `get_square_color` from pos.c: 0 for the squares of the dark-square
bitboard 0xaa55aa55aa55aa55, 1 for the others. -/
def get_square_color (sq : Nat) : Nat :=
  if (0xaa55aa55aa55aa55 >>> sq) &&& 1 = 0 then 1 else 0

/-! ## Position (struct position in pos.c)

The irreversible-state stack is a non-empty list: `irr_top` is the frame at
`irr_state_idx` and `irr_rest` the frames below it, most recent first. -/

structure IrrState where
  castling_rights_and_enpassant : Nat
  halfmove_clock : Nat
  captured_piece : Nat
deriving DecidableEq, Repr

structure Position where
  irr_top : IrrState
  irr_rest : List IrrState
  side_to_move : Nat
  fullmove_counter : Int
  /-- `color_bb[2]`, index 0 = white. -/
  color_bb : List Nat
  /-- `type_bb[6]`, indexed by piece type. -/
  type_bb : List Nat
  /-- The mailbox `board[64]`. -/
  board : List Nat
deriving DecidableEq, Repr

def get_side_to_move (pos : Position) : Nat := pos.side_to_move

def get_color_bitboard (pos : Position) (c : Nat) : Nat := pos.color_bb.getD c 0

def type_bitboard (pos : Position) (pt : Nat) : Nat := pos.type_bb.getD pt 0

def get_piece_at (pos : Position) (sq : Nat) : Nat := pos.board.getD sq PIECE_NONE

def get_piece_bitboard (pos : Position) (p : Nat) : Nat :=
  type_bitboard pos (get_piece_type p) &&& get_color_bitboard pos (get_piece_color p)

def get_king_square (pos : Position) (c : Nat) : Nat :=
  get_ls1b (get_piece_bitboard pos (create_piece PIECE_TYPE_KING c))

def get_number_of_pieces (pos : Position) (p : Nat) : Nat :=
  popcnt (get_piece_bitboard pos p)

def has_castling_right (pos : Position) (c side : Nat) : Bool :=
  pos.irr_top.castling_rights_and_enpassant &&& ((1 <<< side) <<< (2 * c)) ≠ 0

def enpassant_possible (pos : Position) : Bool :=
  pos.irr_top.castling_rights_and_enpassant &&& 0x80 ≠ 0

def get_enpassant_square (pos : Position) : Nat :=
  let f := (pos.irr_top.castling_rights_and_enpassant &&& 0x70) >>> 4
  let r := if pos.side_to_move = COLOR_WHITE then 5 else 2
  file_rank_to_square f r

def get_captured_piece (pos : Position) : Nat := pos.irr_top.captured_piece

def get_halfmove_clock (pos : Position) : Nat := pos.irr_top.halfmove_clock

def get_fullmove_counter (pos : Position) : Int := pos.fullmove_counter

/-! Mutators from pos.c, in functional form. -/

def set_color_bb (pos : Position) (c bb : Nat) : Position :=
  { pos with color_bb := pos.color_bb.set c bb }

def set_type_bb (pos : Position) (pt bb : Nat) : Position :=
  { pos with type_bb := pos.type_bb.set pt bb }

def remove_piece (pos : Position) (sq : Nat) : Position :=
  let piece := get_piece_at pos sq
  let bb := 1 <<< sq
  let pos := set_color_bb pos (get_piece_color piece)
    (get_color_bitboard pos (get_piece_color piece) &&& compl64 bb)
  let pos := set_type_bb pos (get_piece_type piece)
    (type_bitboard pos (get_piece_type piece) &&& compl64 bb)
  { pos with board := pos.board.set sq PIECE_NONE }

def place_piece (pos : Position) (sq piece : Nat) : Position :=
  let bb := 1 <<< sq
  let pos := if get_piece_at pos sq ≠ PIECE_NONE then remove_piece pos sq else pos
  let pos := set_color_bb pos (get_piece_color piece)
    (get_color_bitboard pos (get_piece_color piece) ||| bb)
  let pos := set_type_bb pos (get_piece_type piece)
    (type_bitboard pos (get_piece_type piece) ||| bb)
  { pos with board := pos.board.set sq piece }

def flip_side_to_move (pos : Position) : Position :=
  { pos with side_to_move :=
      if pos.side_to_move = COLOR_WHITE then COLOR_BLACK else COLOR_WHITE }

def remove_castling (pos : Position) (c side : Nat) : Position :=
  { pos with irr_top := { pos.irr_top with castling_rights_and_enpassant :=
      pos.irr_top.castling_rights_and_enpassant &&&
        (0xff ^^^ ((1 <<< side) <<< (2 * c))) } }

def add_castling (pos : Position) (c side : Nat) : Position :=
  { pos with irr_top := { pos.irr_top with castling_rights_and_enpassant :=
      pos.irr_top.castling_rights_and_enpassant ||| ((1 <<< side) <<< (2 * c)) } }

def unset_enpassant (pos : Position) : Position :=
  { pos with irr_top := { pos.irr_top with castling_rights_and_enpassant :=
      pos.irr_top.castling_rights_and_enpassant &&& 0xf } }

def set_enpassant (pos : Position) (file : Nat) : Position :=
  let r := pos.irr_top.castling_rights_and_enpassant &&& 0x8f
  let r := r ||| 0x80
  let r := r ||| ((file &&& 0x7) <<< 4)
  { pos with irr_top := { pos.irr_top with castling_rights_and_enpassant := r } }

def set_captured_piece (pos : Position) (piece : Nat) : Position :=
  { pos with irr_top := { pos.irr_top with captured_piece := piece } }

def reset_halfmove_clock (pos : Position) : Position :=
  { pos with irr_top := { pos.irr_top with halfmove_clock := 0 } }

def increment_halfmove_clock (pos : Position) : Position :=
  { pos with irr_top := { pos.irr_top with halfmove_clock :=
      (pos.irr_top.halfmove_clock + 1) % 256 } }

def increment_fullmove_counter (pos : Position) : Position :=
  { pos with fullmove_counter := pos.fullmove_counter + 1 }

def decrement_fullmove_counter (pos : Position) : Position :=
  { pos with fullmove_counter := pos.fullmove_counter - 1 }

/-- Push a copy of the current irreversible state onto the stack. -/
def start_new_irreversible_state (pos : Position) : Position :=
  { pos with irr_rest := pos.irr_top :: pos.irr_rest }

/-- Pop the current irreversible state off the stack. -/
def backtrack_irreversible_state (pos : Position) : Position :=
  { pos with irr_top := pos.irr_rest.headD pos.irr_top,
             irr_rest := pos.irr_rest.tail }

/-- `get_phase` from pos.c: game phase between 0 (initial) and 256 (final),
computed from the non-pawn material weights. -/
def phase_weight (pt : Nat) : Int := [0, 1, 1, 2, 4].getD pt 0

def get_phase (pos : Position) : Int :=
  let neutral : Int := 16 * 0 + 4 * 1 + 4 * 1 + 4 * 2 + 2 * 4
  let phase := (List.range 2).foldl (fun phase c =>
    (List.range 5).foldl (fun phase pt =>
      let piece := create_piece pt c
      let num : Int := get_number_of_pieces pos piece
      phase - num * phase_weight pt) phase) neutral
  Int.tdiv (256 * phase + Int.tdiv neutral 2) neutral

/-- `pos_equal` from pos.c: the equality used by the repetition rule. -/
def pos_equal (pos1 pos2 : Position) : Bool :=
  if get_side_to_move pos1 ≠ get_side_to_move pos2 then false
  else if (List.range 2).any (fun c => (List.range 2).any (fun s =>
      has_castling_right pos1 c s ≠ has_castling_right pos2 c s)) then false
  else if enpassant_possible pos1 ≠ enpassant_possible pos2 then false
  else if enpassant_possible pos1 && enpassant_possible pos2 &&
      get_enpassant_square pos1 ≠ get_enpassant_square pos2 then false
  else if get_color_bitboard pos1 COLOR_WHITE ≠ get_color_bitboard pos2 COLOR_WHITE then
    false
  else if get_color_bitboard pos1 COLOR_BLACK ≠ get_color_bitboard pos2 COLOR_BLACK then
    false
  else if (List.range 6).any (fun pt => type_bitboard pos1 pt ≠ type_bitboard pos2 pt) then
    false
  else true

/-! ## Mate-score normalization for the transposition table (search.c) -/

def INF : Int := 32767
def MAX_DEPTH : Int := 128
def MAX_PLY : Int := 256

/-- `score_to_ttscore` from search.c: ply-normalize a mate score before it
is stored in the transposition table. -/
def score_to_ttscore (score ply : Int) : Int :=
  if score ≥ INF - MAX_PLY then score + ply
  else if score ≤ -INF + MAX_PLY then score - ply
  else score

/-- `ttscore_to_score` from search.c, including its comparison against
`INF + MAX_PLY` in the second branch. -/
def ttscore_to_score (score ply : Int) : Int :=
  if score ≥ INF - MAX_PLY then score - ply
  else if score ≤ INF + MAX_PLY then score + ply
  else score

/-! ## Zobrist hashing (tt.c)

The Zobrist key table is filled at init from the seeded PRNG in rng.c,
which is not in the tree; the table is therefore passed as a function from
table index to key.  Piece keys occupy indexes 0..767, castling keys
768..783, en-passant file keys 784..791 and the side key 792. -/

def hash_pos (zobrist : Nat → Nat) (pos : Position) : Nat :=
  let key := (List.range 64).foldl (fun key sq =>
    let piece := get_piece_at pos sq
    if piece ≠ PIECE_NONE then key ^^^ zobrist (64 * piece + sq) else key) 0
  -- The C loop assigns `rights = ...` on every iteration instead of
  -- accumulating, so the fold below deliberately ignores its accumulator.
  let rights := (List.range 2).foldl (fun _rights c =>
    let hk := if has_castling_right pos c CASTLING_SIDE_KING then 1 else 0
    let hq := if has_castling_right pos c CASTLING_SIDE_QUEEN then 1 else 0
    ((hk <<< 1) ||| hq) <<< (2 * c)) 0
  let key := key ^^^ zobrist (12 * 64 + rights)
  let key := if enpassant_possible pos then
      key ^^^ zobrist (12 * 64 + 16 + get_file (get_enpassant_square pos))
    else key
  if get_side_to_move pos = COLOR_BLACK then key ^^^ zobrist (12 * 64 + 16 + 8)
  else key

/-! ## Move encoding

Modelled from the spec: move.h is not in the tree.  A Move is a 16-bit
word packing origin (6 bits), target (6 bits) and move type (4 bits); the
move types are numbered in the order the spec lists them.  The field order
inside the word is not fixed by the spec and is chosen here as type in
bits 12..15, origin in bits 6..11, target in bits 0..5; `0` is the "no
move" sentinel used throughout search.c. -/

def MOVE_OTHER : Nat := 0
def MOVE_DOUBLE_PAWN_PUSH : Nat := 1
def MOVE_KING_CASTLE : Nat := 2
def MOVE_QUEEN_CASTLE : Nat := 3
def MOVE_CAPTURE : Nat := 4
def MOVE_EP_CAPTURE : Nat := 5
def MOVE_KNIGHT_PROMOTION : Nat := 6
def MOVE_BISHOP_PROMOTION : Nat := 7
def MOVE_ROOK_PROMOTION : Nat := 8
def MOVE_QUEEN_PROMOTION : Nat := 9
def MOVE_KNIGHT_PROMOTION_CAPTURE : Nat := 10
def MOVE_BISHOP_PROMOTION_CAPTURE : Nat := 11
def MOVE_ROOK_PROMOTION_CAPTURE : Nat := 12
def MOVE_QUEEN_PROMOTION_CAPTURE : Nat := 13

def create_move (origin target mtype : Nat) : Nat :=
  (mtype <<< 12) ||| (origin <<< 6) ||| target

def get_move_origin (m : Nat) : Nat := (m >>> 6) &&& 63

def get_move_target (m : Nat) : Nat := m &&& 63

def get_move_type (m : Nat) : Nat := m >>> 12

/-- Modelled from the spec: `is_capture` covers plain captures, promotion
captures and en passant. -/
def move_is_capture (m : Nat) : Bool :=
  get_move_type m = MOVE_CAPTURE || get_move_type m = MOVE_EP_CAPTURE ||
  (MOVE_KNIGHT_PROMOTION_CAPTURE ≤ get_move_type m &&
   get_move_type m ≤ MOVE_QUEEN_PROMOTION_CAPTURE)

/-- Modelled from the spec: `is_promotion` covers all eight promotion
types. -/
def move_is_promotion (m : Nat) : Bool :=
  MOVE_KNIGHT_PROMOTION ≤ get_move_type m &&
  get_move_type m ≤ MOVE_QUEEN_PROMOTION_CAPTURE

/-- Modelled from the spec: `is_castling` covers the two castling types. -/
def move_is_castling (m : Nat) : Bool :=
  get_move_type m = MOVE_KING_CASTLE || get_move_type m = MOVE_QUEEN_CASTLE

/-- Modelled from the spec: `is_quiet` = not capture and not promotion. -/
def move_is_quiet (m : Nat) : Bool :=
  !move_is_capture m && !move_is_promotion m

/-! ## Ray bitboards and sliding attacks (movegen.c)

The rank and file constant bitboards, the single-step shifts and the ray
generators are translated directly.  The magic-bitboard tables are filled
at init so that a lookup returns exactly the slow ray-generated attack set
of the masked occupancy; `get_rook_attacks` and `get_bishop_attacks` embed
the lookup through that initialization invariant. -/

def FILE_A : Nat := 0
def FILE_H : Nat := 7
def RANK_1 : Nat := 0
def RANK_4 : Nat := 3
def RANK_5 : Nat := 4
def RANK_8 : Nat := 7

def rank_bitboards : List Nat :=
  [0x00000000000000ff, 0x000000000000ff00, 0x0000000000ff0000,
   0x00000000ff000000, 0x000000ff00000000, 0x0000ff0000000000,
   0x00ff000000000000, 0xff00000000000000]

def file_bitboards : List Nat :=
  [0x0101010101010101, 0x0202020202020202, 0x0404040404040404,
   0x0808080808080808, 0x1010101010101010, 0x2020202020202020,
   0x4040404040404040, 0x8080808080808080]

def move_west (bb : Nat) : Nat → Nat
  | 0 => bb
  | n + 1 => (move_west bb n >>> 1) &&& compl64 (file_bitboards.getD FILE_H 0)

def move_east (bb : Nat) : Nat → Nat
  | 0 => bb
  | n + 1 => mask64 (move_east bb n <<< 1) &&& compl64 (file_bitboards.getD FILE_A 0)

def move_south (bb n : Nat) : Nat := bb >>> (8 * n)

def move_north (bb n : Nat) : Nat := mask64 (bb <<< (8 * n))

def move_southwest (bb n : Nat) : Nat := move_west (move_south bb n) n

def move_southeast (bb n : Nat) : Nat := move_east (move_south bb n) n

def move_northwest (bb n : Nat) : Nat := move_west (move_north bb n) n

def move_northeast (bb n : Nat) : Nat := move_east (move_north bb n) n

def get_north_ray (sq : Nat) : Nat := mask64 (0x0101010101010100 <<< sq)

def get_south_ray (sq : Nat) : Nat := 0x0080808080808080 >>> (sq ^^^ 63)

def get_northeast_ray (sq : Nat) : Nat :=
  mask64 (move_east 0x8040201008040200 (get_file sq) <<< (get_rank sq * 8))

def get_northwest_ray (sq : Nat) : Nat :=
  mask64 (move_west 0x0102040810204000 (7 - get_file sq) <<< (get_rank sq * 8))

def get_southeast_ray (sq : Nat) : Nat :=
  move_east 0x0002040810204080 (get_file sq) >>> ((7 - get_rank sq) * 8)

def get_southwest_ray (sq : Nat) : Nat :=
  move_west 0x0040201008040201 (7 - get_file sq) >>> ((7 - get_rank sq) * 8)

def get_east_ray (sq : Nat) : Nat :=
  mask64 (2 * ((1 <<< (sq ||| 7)) - (1 <<< sq)))

def get_west_ray (sq : Nat) : Nat := (1 <<< sq) - (1 <<< (sq &&& 56))

inductive Dir
  | north | south | east | west | northeast | northwest | southeast | southwest
deriving DecidableEq, Repr

def ray_bitboards : Dir → Nat → Nat
  | Dir.north => get_north_ray
  | Dir.south => get_south_ray
  | Dir.east => get_east_ray
  | Dir.west => get_west_ray
  | Dir.northeast => get_northeast_ray
  | Dir.northwest => get_northwest_ray
  | Dir.southeast => get_southeast_ray
  | Dir.southwest => get_southwest_ray

/-- `dir_mask` from gen_ray_attacks: all ones for the negative directions,
zero for the positive ones. -/
def dir_mask : Dir → Nat
  | Dir.south | Dir.southeast | Dir.west | Dir.southwest => 0xffffffffffffffff
  | _ => 0

/-- `dir_bit` from gen_ray_attacks: bit 0 for the negative directions, bit
63 for the positive ones. -/
def dir_bit : Dir → Nat
  | Dir.south | Dir.southeast | Dir.west | Dir.southwest => 0x1
  | _ => 0x8000000000000000

def gen_ray_attacks (occ : Nat) (dir : Dir) (sq : Nat) : Nat :=
  let attacks := ray_bitboards dir sq
  let blockers := attacks &&& occ
  let blockers := blockers ||| dir_bit dir
  let blockers := blockers &&& (neg64 blockers ||| dir_mask dir)
  let sq := get_ms1b blockers
  attacks ^^^ ray_bitboards dir sq

def slow_gen_bishop_attacks (sq occ : Nat) : Nat :=
  gen_ray_attacks occ Dir.northeast sq |||
  gen_ray_attacks occ Dir.southeast sq |||
  gen_ray_attacks occ Dir.southwest sq |||
  gen_ray_attacks occ Dir.northwest sq

def slow_gen_rook_attacks (sq occ : Nat) : Nat :=
  gen_ray_attacks occ Dir.north sq |||
  gen_ray_attacks occ Dir.east sq |||
  gen_ray_attacks occ Dir.south sq |||
  gen_ray_attacks occ Dir.west sq

/-- The relevant-occupancy edge mask computed in init_magics_for_piece_type. -/
def board_edges (sq : Nat) : Nat :=
  ((file_bitboards.getD FILE_A 0 ||| file_bitboards.getD FILE_H 0) &&&
   compl64 (file_bitboards.getD (get_file sq) 0)) |||
  ((rank_bitboards.getD RANK_1 0 ||| rank_bitboards.getD RANK_8 0) &&&
   compl64 (rank_bitboards.getD (get_rank sq) 0))

def rook_mask (sq : Nat) : Nat :=
  slow_gen_rook_attacks sq 0 &&& compl64 (board_edges sq)

def bishop_mask (sq : Nat) : Nat :=
  slow_gen_bishop_attacks sq 0 &&& compl64 (board_edges sq)

/-- `get_rook_attacks`: the magic-table lookup; by the initialization in
init_magics_for_piece_type the entry indexed by `occ & mask` is the slow
ray-generated attack set for that masked occupancy. -/
def get_rook_attacks (sq occ : Nat) : Nat :=
  slow_gen_rook_attacks sq (occ &&& rook_mask sq)

def get_bishop_attacks (sq occ : Nat) : Nat :=
  slow_gen_bishop_attacks sq (occ &&& bishop_mask sq)

def get_queen_attacks (sq occ : Nat) : Nat :=
  get_rook_attacks sq occ ||| get_bishop_attacks sq occ

/-- The per-square value filled into knight_attack_table by
init_knight_attacks. -/
def get_knight_attacks (sq : Nat) : Nat :=
  let bb := mask64 (1 <<< sq)
  let l1 := (bb >>> 1) &&& 0x7f7f7f7f7f7f7f7f
  let l2 := (bb >>> 2) &&& 0x3f3f3f3f3f3f3f3f
  let r1 := mask64 (bb <<< 1) &&& 0xfefefefefefefefe
  let r2 := mask64 (bb <<< 2) &&& 0xfcfcfcfcfcfcfcfc
  let h1 := l1 ||| r1
  let h2 := l2 ||| r2
  mask64 (h1 <<< 16) ||| (h1 >>> 16) ||| mask64 (h2 <<< 8) ||| (h2 >>> 8)

/-- The per-square value filled into king_attack_table by
init_king_attacks. -/
def get_king_attacks (sq : Nat) : Nat :=
  let bb := mask64 (1 <<< sq)
  let att := move_east bb 1 ||| move_west bb 1
  let bb := bb ||| att
  att ||| move_north bb 1 ||| move_south bb 1

def get_single_push (sq occ c : Nat) : Nat :=
  let bb := 1 <<< sq
  if c = COLOR_WHITE then move_north bb 1 &&& compl64 occ
  else move_south bb 1 &&& compl64 occ

def get_double_push (sq occ c : Nat) : Nat :=
  let single_push := get_single_push sq occ c
  if c = COLOR_WHITE then
    move_north single_push 1 &&& compl64 occ &&& rank_bitboards.getD RANK_4 0
  else
    move_south single_push 1 &&& compl64 occ &&& rank_bitboards.getD RANK_5 0

def get_pawn_attacks (sq c : Nat) : Nat :=
  let bb := 1 <<< sq
  if c = COLOR_WHITE then move_northeast bb 1 ||| move_northwest bb 1
  else move_southeast bb 1 ||| move_southwest bb 1

/-! ## Pseudo-legal move generation (movegen.c)

Each `add_*` emitter returns the list of moves it appends; the C move list
is the concatenation in emission order. -/

def add_pushes (origin occ color : Nat) : List Nat :=
  let targets := get_single_push origin occ color
  if targets ≠ 0 then
    let tosq := get_ls1b targets
    if (color = COLOR_WHITE ∧ get_rank tosq = RANK_8) ∨
       (color = COLOR_BLACK ∧ get_rank tosq = RANK_1) then
      [create_move origin tosq MOVE_KNIGHT_PROMOTION,
       create_move origin tosq MOVE_BISHOP_PROMOTION,
       create_move origin tosq MOVE_ROOK_PROMOTION,
       create_move origin tosq MOVE_QUEEN_PROMOTION]
    else [create_move origin tosq MOVE_OTHER]
  else []

def add_double_pushes (origin occ color : Nat) : List Nat :=
  let targets := get_double_push origin occ color
  if targets ≠ 0 then [create_move origin (get_ls1b targets) MOVE_DOUBLE_PAWN_PUSH]
  else []

def add_pawn_attacks (origin enemy_pieces color : Nat) : List Nat :=
  (bitSquares (get_pawn_attacks origin color &&& enemy_pieces)).flatMap fun tosq =>
    if (color = COLOR_WHITE ∧ get_rank tosq = RANK_8) ∨
       (color = COLOR_BLACK ∧ get_rank tosq = RANK_1) then
      [create_move origin tosq MOVE_KNIGHT_PROMOTION_CAPTURE,
       create_move origin tosq MOVE_BISHOP_PROMOTION_CAPTURE,
       create_move origin tosq MOVE_ROOK_PROMOTION_CAPTURE,
       create_move origin tosq MOVE_QUEEN_PROMOTION_CAPTURE]
    else [create_move origin tosq MOVE_CAPTURE]

def add_pawn_moves (pos : Position) : List Nat :=
  let color := get_side_to_move pos
  let piece := create_piece PIECE_TYPE_PAWN color
  let enemy_pieces := get_color_bitboard pos (opp color)
  let occ := enemy_pieces ||| get_color_bitboard pos color
  let bb := get_piece_bitboard pos piece
  let ep_moves :=
    if enpassant_possible pos then
      let sq := get_enpassant_square pos
      (bitSquares (get_pawn_attacks sq (opp color) &&& bb)).map fun origin =>
        create_move origin sq MOVE_EP_CAPTURE
    else []
  ep_moves ++ (bitSquares bb).flatMap fun origin =>
    add_pushes origin occ color ++ add_double_pushes origin occ color ++
    add_pawn_attacks origin enemy_pieces color

def B1 : Nat := 1
def C1 : Nat := 2
def D1 : Nat := 3
def E1 : Nat := 4
def F1 : Nat := 5
def G1 : Nat := 6
def B8 : Nat := 57
def C8 : Nat := 58
def D8 : Nat := 59
def E8 : Nat := 60
def F8 : Nat := 61
def G8 : Nat := 62

/-- `is_square_attacked` from movegen.c. -/
def is_square_attacked (sq by_side : Nat) (pos : Position) : Bool :=
  let occ := get_color_bitboard pos by_side ||| get_color_bitboard pos (opp by_side)
  let pawns := get_piece_bitboard pos (create_piece PIECE_TYPE_PAWN by_side)
  if get_pawn_attacks sq (opp by_side) &&& pawns ≠ 0 then true
  else
    let knights := get_piece_bitboard pos (create_piece PIECE_TYPE_KNIGHT by_side)
    if get_knight_attacks sq &&& knights ≠ 0 then true
    else
      let rooks_queens :=
        get_piece_bitboard pos (create_piece PIECE_TYPE_ROOK by_side) |||
        get_piece_bitboard pos (create_piece PIECE_TYPE_QUEEN by_side)
      if get_rook_attacks sq occ &&& rooks_queens ≠ 0 then true
      else
        let bishops_queens :=
          get_piece_bitboard pos (create_piece PIECE_TYPE_QUEEN by_side) |||
          get_piece_bitboard pos (create_piece PIECE_TYPE_BISHOP by_side)
        if get_bishop_attacks sq occ &&& bishops_queens ≠ 0 then true
        else
          let king := get_piece_bitboard pos (create_piece PIECE_TYPE_KING by_side)
          if get_king_attacks sq &&& king ≠ 0 then true
          else false

def add_king_castling (pos : Position) : List Nat :=
  let color := get_side_to_move pos
  let origin := get_king_square pos color
  if has_castling_right pos color CASTLING_SIDE_KING then
    let sq1 := if color = COLOR_WHITE then F1 else F8
    let sq2 := if color = COLOR_WHITE then G1 else G8
    if get_piece_at pos sq1 = PIECE_NONE ∧ get_piece_at pos sq2 = PIECE_NONE ∧
       ¬is_square_attacked sq1 (opp color) pos ∧
       ¬is_square_attacked sq2 (opp color) pos ∧
       ¬is_square_attacked origin (opp color) pos then
      [create_move origin (if color = COLOR_WHITE then G1 else G8) MOVE_KING_CASTLE]
    else []
  else []

def add_queen_castling (pos : Position) : List Nat :=
  let color := get_side_to_move pos
  let origin := get_king_square pos color
  if has_castling_right pos color CASTLING_SIDE_QUEEN then
    let sq1 := if color = COLOR_WHITE then D1 else D8
    let sq2 := if color = COLOR_WHITE then C1 else C8
    let sq3 := if color = COLOR_WHITE then B1 else B8
    if get_piece_at pos sq1 = PIECE_NONE ∧ get_piece_at pos sq2 = PIECE_NONE ∧
       get_piece_at pos sq3 = PIECE_NONE ∧
       ¬is_square_attacked sq1 (opp color) pos ∧
       ¬is_square_attacked sq2 (opp color) pos ∧
       ¬is_square_attacked origin (opp color) pos then
      [create_move origin (if color = COLOR_WHITE then C1 else C8) MOVE_QUEEN_CASTLE]
    else []
  else []

def add_king_moves (pos : Position) : List Nat :=
  let color := get_side_to_move pos
  let origin := get_king_square pos color
  let occ := get_color_bitboard pos color ||| get_color_bitboard pos (opp color)
  let friendly_pieces := occ &&& get_color_bitboard pos color
  add_king_castling pos ++ add_queen_castling pos ++
    (bitSquares (get_king_attacks origin &&& compl64 friendly_pieces)).map fun tosq =>
      if get_piece_at pos tosq = PIECE_NONE then create_move origin tosq MOVE_OTHER
      else create_move origin tosq MOVE_CAPTURE

def add_moves (piece_type : Nat) (pos : Position) : List Nat :=
  if piece_type = PIECE_TYPE_PAWN then add_pawn_moves pos
  else if piece_type = PIECE_TYPE_KING then add_king_moves pos
  else
    let color := get_side_to_move pos
    let piece := create_piece piece_type color
    let occ := get_color_bitboard pos color ||| get_color_bitboard pos (opp color)
    let friendly_pieces := occ &&& get_color_bitboard pos color
    (bitSquares (get_piece_bitboard pos piece)).flatMap fun origin =>
      let targets :=
        if piece_type = PIECE_TYPE_KNIGHT then get_knight_attacks origin
        else if piece_type = PIECE_TYPE_ROOK then get_rook_attacks origin occ
        else if piece_type = PIECE_TYPE_BISHOP then get_bishop_attacks origin occ
        else get_queen_attacks origin occ
      (bitSquares (targets &&& compl64 friendly_pieces)).map fun tosq =>
        if get_piece_at pos tosq = PIECE_NONE then create_move origin tosq MOVE_OTHER
        else create_move origin tosq MOVE_CAPTURE

/-- The full move list built by get_pseudo_legal_moves before the NULL
check, in emission order. -/
def pseudo_legal_move_list (pos : Position) : List Nat :=
  add_moves PIECE_TYPE_PAWN pos ++ add_moves PIECE_TYPE_KNIGHT pos ++
  add_moves PIECE_TYPE_ROOK pos ++ add_moves PIECE_TYPE_BISHOP pos ++
  add_moves PIECE_TYPE_QUEEN pos ++ add_moves PIECE_TYPE_KING pos

/-- `get_pseudo_legal_moves`: returns the list (NULL, modelled as `none`,
when no moves are possible) together with the value written to `*len`. -/
def get_pseudo_legal_moves (pos : Position) : Option (List Nat) × Nat :=
  let list := pseudo_legal_move_list pos
  if list.length = 0 then (none, 0) else (some list, list.length)

/-- `get_attackers` from movegen.c. -/
def get_attackers (sq : Nat) (pos : Position) : Nat :=
  let occ := get_color_bitboard pos COLOR_WHITE ||| get_color_bitboard pos COLOR_BLACK
  let white_pawns := get_piece_bitboard pos (create_piece PIECE_TYPE_PAWN COLOR_BLACK)
  let black_pawns := get_piece_bitboard pos (create_piece PIECE_TYPE_PAWN COLOR_WHITE)
  let knights := get_piece_bitboard pos (create_piece PIECE_TYPE_KNIGHT COLOR_WHITE) |||
                 get_piece_bitboard pos (create_piece PIECE_TYPE_KNIGHT COLOR_BLACK)
  let kings := get_piece_bitboard pos (create_piece PIECE_TYPE_KING COLOR_WHITE) |||
               get_piece_bitboard pos (create_piece PIECE_TYPE_KING COLOR_BLACK)
  let bishops_queens :=
    get_piece_bitboard pos (create_piece PIECE_TYPE_QUEEN COLOR_WHITE) |||
    get_piece_bitboard pos (create_piece PIECE_TYPE_QUEEN COLOR_BLACK) |||
    get_piece_bitboard pos (create_piece PIECE_TYPE_BISHOP COLOR_WHITE) |||
    get_piece_bitboard pos (create_piece PIECE_TYPE_BISHOP COLOR_BLACK)
  let rooks_queens :=
    get_piece_bitboard pos (create_piece PIECE_TYPE_QUEEN COLOR_WHITE) |||
    get_piece_bitboard pos (create_piece PIECE_TYPE_QUEEN COLOR_BLACK) |||
    get_piece_bitboard pos (create_piece PIECE_TYPE_ROOK COLOR_WHITE) |||
    get_piece_bitboard pos (create_piece PIECE_TYPE_ROOK COLOR_BLACK)
  (get_pawn_attacks sq COLOR_WHITE &&& white_pawns) |||
  (get_pawn_attacks sq COLOR_BLACK &&& black_pawns) |||
  (get_knight_attacks sq &&& knights) |||
  (get_king_attacks sq &&& kings) |||
  (get_bishop_attacks sq occ &&& bishops_queens) |||
  (get_rook_attacks sq occ &&& rooks_queens)

/-! ## Making and unmaking moves

Modelled from the spec: move.c is not in the tree; `do_move`, `undo_move`,
the null-move pair and `move_is_legal` follow §4.1 and §4.2 of the spec
word for word, on top of the pos.c mutators above. -/

/-- Piece type produced by a promotion move type. -/
def promotion_piece_type (mtype : Nat) : Nat :=
  if mtype ≥ MOVE_KNIGHT_PROMOTION_CAPTURE then mtype - 9 else mtype - 5

/-- Square of the pawn removed by an en passant capture: directly behind
the target square from the mover's point of view. -/
def ep_victim_square (tosq c : Nat) : Nat :=
  if c = COLOR_WHITE then tosq - 8 else tosq + 8

/-- Home square of the rook for a castling right, used for the rights
update on rook moves and rook captures. -/
def rook_home_square (c side : Nat) : Nat :=
  if c = COLOR_WHITE then (if side = CASTLING_SIDE_KING then 7 else 0)
  else (if side = CASTLING_SIDE_KING then 63 else 56)

/-- Modelled from the spec, §4.1: push a new irreversible-state frame,
apply the move (capture, en passant, promotion, castling rook move),
update castling rights, en passant, the halfmove clock, the side to move
and the fullmove counter. -/
def do_move (pos : Position) (m : Nat) : Position :=
  let origin := get_move_origin m
  let tosq := get_move_target m
  let mtype := get_move_type m
  let c := get_side_to_move pos
  let piece := get_piece_at pos origin
  let pos := start_new_irreversible_state pos
  let captured :=
    if mtype = MOVE_EP_CAPTURE then create_piece PIECE_TYPE_PAWN (opp c)
    else get_piece_at pos tosq
  let pos := set_captured_piece pos captured
  let pos := if mtype = MOVE_EP_CAPTURE then remove_piece pos (ep_victim_square tosq c)
             else pos
  let pos := remove_piece pos origin
  let placed := if move_is_promotion m then create_piece (promotion_piece_type mtype) c
                else piece
  let pos := place_piece pos tosq placed
  let pos :=
    if mtype = MOVE_KING_CASTLE then
      let rook := create_piece PIECE_TYPE_ROOK c
      let corner := if c = COLOR_WHITE then 7 else 63
      let beside := if c = COLOR_WHITE then F1 else F8
      place_piece (remove_piece pos corner) beside rook
    else if mtype = MOVE_QUEEN_CASTLE then
      let rook := create_piece PIECE_TYPE_ROOK c
      let corner := if c = COLOR_WHITE then 0 else 56
      let beside := if c = COLOR_WHITE then D1 else D8
      place_piece (remove_piece pos corner) beside rook
    else pos
  let pos :=
    if get_piece_type piece = PIECE_TYPE_KING then
      remove_castling (remove_castling pos c CASTLING_SIDE_KING) c CASTLING_SIDE_QUEEN
    else pos
  let pos :=
    if get_piece_type piece = PIECE_TYPE_ROOK ∧ origin = rook_home_square c CASTLING_SIDE_KING
    then remove_castling pos c CASTLING_SIDE_KING else pos
  let pos :=
    if get_piece_type piece = PIECE_TYPE_ROOK ∧ origin = rook_home_square c CASTLING_SIDE_QUEEN
    then remove_castling pos c CASTLING_SIDE_QUEEN else pos
  let pos :=
    if captured = create_piece PIECE_TYPE_ROOK (opp c) ∧
       tosq = rook_home_square (opp c) CASTLING_SIDE_KING
    then remove_castling pos (opp c) CASTLING_SIDE_KING else pos
  let pos :=
    if captured = create_piece PIECE_TYPE_ROOK (opp c) ∧
       tosq = rook_home_square (opp c) CASTLING_SIDE_QUEEN
    then remove_castling pos (opp c) CASTLING_SIDE_QUEEN else pos
  let pos := if mtype = MOVE_DOUBLE_PAWN_PUSH then set_enpassant pos (get_file tosq)
             else unset_enpassant pos
  let pos := if get_piece_type piece = PIECE_TYPE_PAWN ∨ move_is_capture m
             then reset_halfmove_clock pos else increment_halfmove_clock pos
  let pos := flip_side_to_move pos
  if c = COLOR_BLACK then increment_fullmove_counter pos else pos

/-- Modelled from the spec, §4.1: the inverse of `do_move`, using the
captured piece stored in the top frame, then popping the frame. -/
def undo_move (pos : Position) (m : Nat) : Position :=
  let pos := flip_side_to_move pos
  let c := get_side_to_move pos
  let pos := if c = COLOR_BLACK then decrement_fullmove_counter pos else pos
  let origin := get_move_origin m
  let tosq := get_move_target m
  let mtype := get_move_type m
  let captured := get_captured_piece pos
  let pos :=
    if mtype = MOVE_KING_CASTLE then
      let rook := create_piece PIECE_TYPE_ROOK c
      let corner := if c = COLOR_WHITE then 7 else 63
      let beside := if c = COLOR_WHITE then F1 else F8
      place_piece (remove_piece pos beside) corner rook
    else if mtype = MOVE_QUEEN_CASTLE then
      let rook := create_piece PIECE_TYPE_ROOK c
      let corner := if c = COLOR_WHITE then 0 else 56
      let beside := if c = COLOR_WHITE then D1 else D8
      place_piece (remove_piece pos beside) corner rook
    else pos
  let moved := get_piece_at pos tosq
  let pos := remove_piece pos tosq
  let pos := place_piece pos origin
    (if move_is_promotion m then create_piece PIECE_TYPE_PAWN c else moved)
  let pos :=
    if mtype = MOVE_EP_CAPTURE then
      place_piece pos (ep_victim_square tosq c) (create_piece PIECE_TYPE_PAWN (opp c))
    else if captured ≠ PIECE_NONE then place_piece pos tosq captured
    else pos
  backtrack_irreversible_state pos

/-- Modelled from the spec, §4.1: `do_null_move` flips the side and clears
en passant in a pushed frame. -/
def do_null_move (pos : Position) : Position :=
  flip_side_to_move (unset_enpassant (start_new_irreversible_state pos))

def undo_null_move (pos : Position) : Position :=
  flip_side_to_move (backtrack_irreversible_state pos)

/-- Modelled from the spec, §4.2: make the move, test whether the mover's
own king is attacked, unmake, return the inverse. -/
def move_is_legal (pos : Position) (m : Nat) : Bool :=
  let c := get_side_to_move pos
  let next := do_move pos m
  !is_square_attacked (get_king_square next c) (opp c) next

/-- Builds a `Position` directly from a list of (square, piece) pairs, the
side to move and the byte holding the castling-rights nibble and the
en-passant file, the way create_pos builds one from a parsed FEN string. -/
def mkPosition (pieces : List (Nat × Nat)) (side crep : Nat) : Position :=
  let empty : Position :=
    { irr_top := { castling_rights_and_enpassant := crep, halfmove_clock := 0,
                   captured_piece := PIECE_NONE },
      irr_rest := [], side_to_move := side, fullmove_counter := 1,
      color_bb := [0, 0], type_bb := [0, 0, 0, 0, 0, 0],
      board := List.replicate 64 PIECE_NONE }
  pieces.foldl (fun pos sp => place_piece pos sp.1 sp.2) empty

/-- `movegen_perft` from movegen.c; the recursion is structural over the
depth. -/
def movegen_perft (pos : Position) : Nat → Nat
  | 0 => 1
  | d + 1 =>
    (pseudo_legal_move_list pos).foldl (fun nodes m =>
      if move_is_legal pos m then nodes + movegen_perft (do_move pos m) d
      else nodes) 0

/-! ## Static evaluation (eval.c)

The piece-square tables are identical in the two versions of eval.c in the
tree and are embedded once. -/

def mg_pawn_sq_table : List Int :=
  [0, 0, 0, 0, 0, 0, 0, 0,
   98, 134, 61, 95, 68, 126, 34, -11,
   -6, 7, 26, 31, 65, 56, 25, -20,
   -14, 13, 6, 21, 23, 12, 17, -23,
   -27, -2, -5, 12, 17, 6, 10, -25,
   -26, -4, -4, -10, 3, 3, 33, -12,
   -35, -1, -20, -23, -15, 24, 38, -22,
   0, 0, 0, 0, 0, 0, 0, 0]

def eg_pawn_sq_table : List Int :=
  [0, 0, 0, 0, 0, 0, 0, 0,
   178, 173, 158, 134, 147, 132, 165, 187,
   94, 100, 85, 67, 56, 53, 82, 84,
   32, 24, 13, 5, -2, 4, 17, 17,
   13, 9, -3, -7, -7, -8, 3, -1,
   4, 7, -6, 1, 0, -5, -1, -8,
   13, 8, 8, 10, 13, 0, 2, -7,
   0, 0, 0, 0, 0, 0, 0, 0]

def mg_knight_sq_table : List Int :=
  [-167, -89, -34, -49, 61, -97, -15, -107,
   -73, -41, 72, 36, 23, 62, 7, -17,
   -47, 60, 37, 65, 84, 129, 73, 44,
   -9, 17, 19, 53, 37, 69, 18, 22,
   -13, 4, 16, 13, 28, 19, 21, -8,
   -23, -9, 12, 10, 19, 17, 25, -16,
   -29, -53, -12, -3, -1, 18, -14, -19,
   -105, -21, -58, -33, -17, -28, -19, -23]

def eg_knight_sq_table : List Int :=
  [-58, -38, -13, -28, -31, -27, -63, -99,
   -25, -8, -25, -2, -9, -25, -24, -52,
   -24, -20, 10, 9, -1, -9, -19, -41,
   -17, 3, 22, 22, 22, 11, 8, -18,
   -18, -6, 16, 25, 16, 17, 4, -18,
   -23, -3, -1, 15, 10, -3, -20, -22,
   -42, -20, -10, -5, -2, -20, -23, -44,
   -29, -51, -23, -15, -22, -18, -50, -64]

def mg_bishop_sq_table : List Int :=
  [-29, 4, -82, -37, -25, -42, 7, -8,
   -26, 16, -18, -13, 30, 59, 18, -47,
   -16, 37, 43, 40, 35, 50, 37, -2,
   -4, 5, 19, 50, 37, 37, 7, -2,
   -6, 13, 13, 26, 34, 12, 10, 4,
   0, 15, 15, 15, 14, 27, 18, 10,
   4, 15, 16, 0, 7, 21, 33, 1,
   -33, -3, -14, -21, -13, -12, -39, -21]

def eg_bishop_sq_table : List Int :=
  [-14, -21, -11, -8, -7, -9, -17, -24,
   -8, -4, 7, -12, -3, -13, -4, -14,
   2, -8, 0, -1, -2, 6, 0, 4,
   -3, 9, 12, 9, 14, 10, 3, 2,
   -6, 3, 13, 19, 7, 10, -3, -9,
   -12, -3, 8, 10, 13, 3, -7, -15,
   -14, -18, -7, -1, 4, -9, -15, -27,
   -23, -9, -23, -5, -9, -16, -5, -17]

def mg_rook_sq_table : List Int :=
  [32, 42, 32, 51, 63, 9, 31, 43,
   27, 32, 58, 62, 80, 67, 26, 44,
   -5, 19, 26, 36, 17, 45, 61, 16,
   -24, -11, 7, 26, 24, 35, -8, -20,
   -36, -26, -12, -1, 9, -7, 6, -23,
   -45, -25, -16, -17, 3, 0, -5, -33,
   -44, -16, -20, -9, -1, 11, -6, -71,
   -19, -13, 1, 17, 16, 7, -37, -26]

def eg_rook_sq_table : List Int :=
  [13, 10, 18, 15, 12, 12, 8, 5,
   11, 13, 13, 11, -3, 3, 8, 3,
   7, 7, 7, 5, 4, -3, -5, -3,
   4, 3, 13, 1, 2, 1, -1, 2,
   3, 5, 8, 4, -5, -6, -8, -11,
   -4, 0, -5, -1, -7, -12, -8, -16,
   -6, -6, 0, 2, -9, -9, -11, -3,
   -9, 2, 3, -1, -5, -13, 4, -20]

def mg_queen_sq_table : List Int :=
  [-28, 0, 29, 12, 59, 44, 43, 45,
   -24, -39, -5, 1, -16, 57, 28, 54,
   -13, -17, 7, 8, 29, 56, 47, 57,
   -27, -27, -16, -16, -1, 17, -2, 1,
   -9, -26, -9, -10, -2, -4, 3, -3,
   -14, 2, -11, -2, -5, 2, 14, 5,
   -35, -8, 11, 2, 8, 15, -3, 1,
   -1, -18, -9, 10, -15, -25, -31, -50]

def eg_queen_sq_table : List Int :=
  [-9, 22, 22, 27, 27, 19, 10, 20,
   -17, 20, 32, 41, 58, 25, 30, 0,
   -20, 6, 9, 49, 47, 35, 19, 9,
   3, 22, 24, 45, 57, 40, 57, 36,
   -18, 28, 19, 47, 31, 34, 39, 23,
   -16, -27, 15, 6, 9, 17, 10, 5,
   -22, -23, -30, -16, -16, -23, -36, -32,
   -33, -28, -22, -43, -5, -32, -20, -41]

def mg_king_sq_table : List Int :=
  [-65, 23, 16, -15, -56, -34, 2, 13,
   29, -1, -20, -7, -8, -4, -38, -29,
   -9, 24, 2, -16, -20, 6, 22, -22,
   -17, -20, -12, -27, -30, -25, -14, -36,
   -49, -1, -27, -39, -46, -44, -33, -51,
   -14, -14, -22, -46, -44, -30, -15, -27,
   1, 7, -8, -64, -43, -16, 9, 8,
   -15, 36, 12, -54, 8, -28, 24, 14]

def eg_king_sq_table : List Int :=
  [-74, -35, -18, -18, -11, 15, 4, -17,
   -12, 17, 14, 17, 17, 38, 23, 11,
   10, 17, 23, 15, 20, 45, 44, 13,
   -8, 22, 24, 27, 26, 33, 26, 3,
   -18, -4, 21, 24, 27, 23, 9, -11,
   -19, -3, 11, 21, 23, 16, 7, -9,
   -27, -11, 4, 13, 14, 4, -5, -17,
   -53, -34, -21, -11, -28, -14, -24, -43]

def mg_table (pt : Nat) : List Int :=
  if pt = PIECE_TYPE_PAWN then mg_pawn_sq_table
  else if pt = PIECE_TYPE_KNIGHT then mg_knight_sq_table
  else if pt = PIECE_TYPE_BISHOP then mg_bishop_sq_table
  else if pt = PIECE_TYPE_ROOK then mg_rook_sq_table
  else if pt = PIECE_TYPE_QUEEN then mg_queen_sq_table
  else mg_king_sq_table

def eg_table (pt : Nat) : List Int :=
  if pt = PIECE_TYPE_PAWN then eg_pawn_sq_table
  else if pt = PIECE_TYPE_KNIGHT then eg_knight_sq_table
  else if pt = PIECE_TYPE_BISHOP then eg_bishop_sq_table
  else if pt = PIECE_TYPE_ROOK then eg_rook_sq_table
  else if pt = PIECE_TYPE_QUEEN then eg_queen_sq_table
  else eg_king_sq_table

/-- `sq_tables[c][pt][sq].mg` as filled by init_sq_tables: the white table
is the vertically flipped (sq XOR 56) black-point-of-view table. -/
def sq_table_mg (c pt sq : Nat) : Int :=
  if c = COLOR_WHITE then (mg_table pt).getD (sq ^^^ 56) 0 else (mg_table pt).getD sq 0

def sq_table_eg (c pt sq : Nat) : Int :=
  if c = COLOR_WHITE then (eg_table pt).getD (sq ^^^ 56) 0 else (eg_table pt).getD sq 0

/-- Centipawn point values, indexed by piece type. -/
def point_value : List Int := [100, 325, 350, 500, 1000, 10000]

def get_attacker_value (piece : Nat) : Int :=
  point_value.getD (5 - get_piece_type piece) 0

def get_captured_piece_value (piece : Nat) : Int :=
  point_value.getD (get_piece_type piece) 0

/-- `get_least_valuable_attackers` from eval.c: the loop state is the pair
(ret, least_piece). -/
def get_least_valuable_attackers (sq : Nat) (pos : Position) : Nat :=
  let attackers := get_attackers sq pos
  ((List.range 6).foldl (fun (st : Nat × Nat) pt =>
    let piece := create_piece pt (get_side_to_move pos)
    let bb := get_piece_bitboard pos piece
    if bb &&& attackers ≠ 0 then
      if st.1 = 0 ∨ get_attacker_value piece > get_captured_piece_value st.2 then
        (bb &&& attackers, piece)
      else st
    else st) (0, PIECE_NONE)).1

def compute_mvv_lva (m : Nat) (pos : Position) : Int × Int :=
  let attacker := get_piece_at pos (get_move_origin m)
  let attacker_color := get_piece_color attacker
  let attacked :=
    if get_move_type m = MOVE_EP_CAPTURE then
      if attacker_color = COLOR_WHITE then create_piece PIECE_TYPE_PAWN COLOR_BLACK
      else create_piece PIECE_TYPE_PAWN COLOR_WHITE
    else get_piece_at pos (get_move_target m)
  let tmp := get_captured_piece_value attacked + get_attacker_value attacker
  (tmp, tmp)

/-- `evaluate_exchange` from eval.c.  The C recursion always captures a
piece, so its depth is bounded by the piece count; the structural bound of
64 steps is never reached. -/
def evaluate_exchange : Nat → Nat → Position → Int
  | 0, _, _ => 0
  | fuel + 1, target, pos =>
    let attackers := get_least_valuable_attackers target pos
    if attackers ≠ 0 then
      let origin := get_ls1b attackers
      let piece := get_piece_at pos origin
      let mtype :=
        if (piece = create_piece PIECE_TYPE_PAWN COLOR_WHITE ∧ get_rank target = RANK_8) ∨
           (piece = create_piece PIECE_TYPE_PAWN COLOR_BLACK ∧ get_rank target = RANK_1)
        then MOVE_QUEEN_PROMOTION_CAPTURE else MOVE_CAPTURE
      let m := create_move origin target mtype
      let next := do_move pos m
      let cap_piece := get_captured_piece next
      let score := get_captured_piece_value cap_piece - evaluate_exchange fuel target next
      if score > 0 then score else 0
    else 0

def compute_material (pos : Position) : Int :=
  let c := get_side_to_move pos
  let num (pt : Nat) (col : Nat) : Int := get_number_of_pieces pos (create_piece pt col)
  point_value.getD PIECE_TYPE_PAWN 0 * (num PIECE_TYPE_PAWN c - num PIECE_TYPE_PAWN (opp c)) +
  point_value.getD PIECE_TYPE_KNIGHT 0 * (num PIECE_TYPE_KNIGHT c - num PIECE_TYPE_KNIGHT (opp c)) +
  point_value.getD PIECE_TYPE_ROOK 0 * (num PIECE_TYPE_ROOK c - num PIECE_TYPE_ROOK (opp c)) +
  point_value.getD PIECE_TYPE_BISHOP 0 * (num PIECE_TYPE_BISHOP c - num PIECE_TYPE_BISHOP (opp c)) +
  point_value.getD PIECE_TYPE_QUEEN 0 * (num PIECE_TYPE_QUEEN c - num PIECE_TYPE_QUEEN (opp c)) +
  point_value.getD PIECE_TYPE_KING 0 * (num PIECE_TYPE_KING c - num PIECE_TYPE_KING (opp c))

def evaluate_capture (m : Nat) (pos : Position) : Int × Int :=
  let target := get_move_target m
  let piece := get_piece_at pos (get_move_origin m)
  let pt := get_piece_type piece
  let cap_piece_type :=
    if get_move_type m = MOVE_EP_CAPTURE then PIECE_TYPE_PAWN
    else get_piece_type (get_piece_at pos target)
  let score := compute_mvv_lva m pos
  if point_value.getD pt 0 < point_value.getD PIECE_TYPE_ROOK 0 ∧
     point_value.getD cap_piece_type 0 ≥ point_value.getD PIECE_TYPE_ROOK 0 then
    let score := (score.1 + point_value.getD cap_piece_type 0,
                  score.2 + point_value.getD cap_piece_type 0)
    if move_is_promotion m then
      (score.1 + point_value.getD PIECE_TYPE_QUEEN 0,
       score.2 + point_value.getD PIECE_TYPE_QUEEN 0)
    else score
  else
    let next := do_move pos m
    let cap_piece := get_captured_piece next
    let tmp := get_captured_piece_value cap_piece - evaluate_exchange 64 target next
    (score.1 + tmp, score.2 + tmp)

/-- `get_smallest_pawn_distance` from eval.c, including the final
subtraction of 1 and the initial value 6 of the running minimum. -/
def get_smallest_pawn_distance (pos : Position) (color : Nat) : Int :=
  let king_sq := get_king_square pos color
  let king_file : Int := get_file king_sq
  let king_rank : Int := get_rank king_sq
  let pawn_bb := get_piece_bitboard pos (create_piece PIECE_TYPE_PAWN color) &&&
                 get_color_bitboard pos color
  let dist := (bitSquares pawn_bb).foldl (fun dist sq =>
    let file_dist := |king_file - (get_file sq : Int)|
    let rank_dist := |king_rank - (get_rank sq : Int)|
    let tmp := if file_dist > rank_dist then file_dist else rank_dist
    if tmp < dist then tmp else dist) 6
  dist - 1

/-- `has_bishop_pair` from eval.c, with its light_bb and dark_bb mask
constants 0x5555... and 0xAAAA... . -/
def has_bishop_pair (pos : Position) (color : Nat) : Bool :=
  let light_bb : Nat := 0x5555555555555555
  let dark_bb : Nat := 0xAAAAAAAAAAAAAAAA
  let piece_bb := get_piece_bitboard pos (create_piece PIECE_TYPE_BISHOP color)
  decide (piece_bb &&& light_bb ≠ 0) && decide (piece_bb &&& dark_bb ≠ 0)

/-- `evaluate` from eval.c (the version at the top of the tree): PST loop,
bishop-pair bonus, material and the end-game king-pawn distance terms,
tapered by the game phase. -/
def evaluate (pos : Position) : Int :=
  let color := get_side_to_move pos
  let phase := get_phase pos
  let score : Int × Int := (0, 0)
  let score := (List.range 64).foldl (fun (score : Int × Int) sq =>
    let piece := get_piece_at pos sq
    if piece = PIECE_NONE then score
    else
      let pt := get_piece_type piece
      if get_piece_color piece = color then
        (score.1 + sq_table_mg color pt sq, score.2 + sq_table_eg color pt sq)
      else
        (score.1 - sq_table_mg (opp color) pt sq,
         score.2 - sq_table_eg (opp color) pt sq)) score
  let half_pawn := Int.tdiv (point_value.getD PIECE_TYPE_PAWN 0) 2
  let score := if has_bishop_pair pos color then
      (score.1 + half_pawn, score.2 + half_pawn) else score
  let score := if has_bishop_pair pos (opp color) then
      (score.1 - half_pawn, score.2 - half_pawn) else score
  let material := compute_material pos
  let score := (score.1 + material, score.2 + material)
  let score := (score.1, score.2 + 16 * get_smallest_pawn_distance pos (opp color))
  let score := (score.1, score.2 - 16 * get_smallest_pawn_distance pos color)
  Int.tdiv (score.1 * (256 - phase) + score.2 * phase) 256

/-- `evaluate_move` from eval.c. -/
def evaluate_move (m : Nat) (pos : Position) : Int :=
  let phase := get_phase pos
  let origin := get_move_origin m
  let target := get_move_target m
  let piece := get_piece_at pos origin
  let color := get_piece_color piece
  let pt := get_piece_type piece
  let score : Int × Int := (0, 0)
  let score :=
    if move_is_promotion m then
      let score :=
        if ¬move_is_capture m then
          let tmp := point_value.getD PIECE_TYPE_QUEEN 0 -
                     point_value.getD PIECE_TYPE_PAWN 0
          (score.1 + tmp, score.2 + tmp)
        else score
      (score.1 + sq_table_mg color PIECE_TYPE_QUEEN target,
       score.2 + sq_table_eg color PIECE_TYPE_QUEEN target)
    else
      (score.1 + sq_table_mg color pt target - sq_table_mg color pt origin,
       score.2 + sq_table_eg color pt target - sq_table_eg color pt origin)
  let score :=
    if move_is_capture m then
      let cap_score := evaluate_capture m pos
      (score.1 + cap_score.1, score.2 + cap_score.2)
    else score
  Int.tdiv (score.1 * (256 - phase) + score.2 * phase) 256

/-! ## The newer evaluation (src/src/eval.c) -/

def INITIAL_PHASE : Int := 0
def FINAL_PHASE : Int := 256

/-- `get_square_value` from src/src/eval.c: black-point-of-view tables,
white squares flipped with sq XOR 56. -/
def get_square_value (piece sq : Nat) (middle_game : Bool) : Int :=
  let pt := get_piece_type piece
  if get_piece_color piece = COLOR_WHITE then
    if middle_game then (mg_table pt).getD (sq ^^^ 56) 0
    else (eg_table pt).getD (sq ^^^ 56) 0
  else
    if middle_game then (mg_table pt).getD sq 0 else (eg_table pt).getD sq 0

/-- `evaluate` from src/src/eval.c: material folded into the evaluation,
followed by the PST loop.  The opponent branch of the PST loop is
translated exactly as written in the source: the middle-game value is
subtracted while the end-game line reads `score.eg +=`. -/
def evaluate_v2 (pos : Position) : Int :=
  let color := get_side_to_move pos
  let phase := get_phase pos
  let score : Int × Int := (0, 0)
  let score := (List.range 5).foldl (fun (score : Int × Int) pt =>
    let nb1 : Int := get_number_of_pieces pos (create_piece pt color)
    let nb2 : Int := get_number_of_pieces pos (create_piece pt (opp color))
    let tmp := point_value.getD pt 0 * (nb1 - nb2)
    (score.1 + tmp, score.2 + tmp)) score
  let score := (List.range 64).foldl (fun (score : Int × Int) sq =>
    let piece := get_piece_at pos sq
    if piece = PIECE_NONE then score
    else if get_piece_color piece = color then
      (score.1 + get_square_value piece sq true,
       score.2 + get_square_value piece sq false)
    else
      (score.1 - get_square_value piece sq true,
       score.2 + get_square_value piece sq false)) score
  Int.tdiv (score.1 * (FINAL_PHASE - phase) + score.2 * (phase - INITIAL_PHASE))
    FINAL_PHASE

/-! ## Transposition table (tt.c) -/

def NODE_TYPE_EXACT : Nat := 0
def NODE_TYPE_CUT : Nat := 1
def NODE_TYPE_ALPHA_UNCHANGED : Nat := 2

/-- Conversion of a C int to the u8 `depth` field of a table entry. -/
def u8_of_int (n : Int) : Nat := (n % 256).toNat

structure NodeData where
  score : Int
  depth : Nat
  ntype : Nat
  hash : Nat
  best_move : Nat
deriving DecidableEq, Repr

/-- A zeroed table slot, as left by the calloc in tt_init. -/
def zero_node_data : NodeData :=
  { score := 0, depth := 0, ntype := 0, hash := 0, best_move := 0 }

structure TranspositionTable where
  capacity : Nat
  entries : Nat → NodeData

def get_tt_entry (zobrist : Nat → Nat) (tt : TranspositionTable) (pos : Position) :
    Option NodeData :=
  let node_hash := hash_pos zobrist pos
  let key := node_hash % tt.capacity
  let tt_data := tt.entries key
  if node_hash = tt_data.hash then some tt_data else none

def store_tt_entry (tt : TranspositionTable) (data : NodeData) : TranspositionTable :=
  let key := data.hash % tt.capacity
  { tt with entries := fun k => if k = key then data else tt.entries k }

def init_tt_entry (zobrist : Nat → Nat) (score depth : Int) (ntype best_move : Nat)
    (pos : Position) : NodeData :=
  { score := score, depth := u8_of_int depth, ntype := ntype,
    best_move := best_move, hash := hash_pos zobrist pos }

/-! ## Search (search.c)

The worker state is split into the C struct search_data, the search
parameters, and a world holding the process-wide transposition table, the
shared running flag and the `info->nodes` counter.  The wall clock is not
representable in the model: `time_up` is an oracle for the comparison of
the current time against the computed stop time, indexed by the node count
at which the poll happens; `compute_search_time` (floating-point time
allocation) is absorbed into that oracle. -/

def POS_CNT_TABLE_LEN : Nat := 8191
def AVERAGE_GAME_LENGTH : Int := 40
def NULL_MOVE_REDUCTION : Int := 4
def LLONG_MAX : Int := 9223372036854775807

structure SearchData where
  ply : Int
  nodes : Int
  pos : Position
  killers : Nat → List Nat
  move_made : Nat → Nat
  pos_cnt : Nat → Int

structure SearchParams where
  depth : Int
  mate : Int
  movestogo : Int
  nodes : Int
  limited_time : Bool
  time_up : Int → Bool
  pos : Position
  moves : List Nat
  zobrist : Nat → Nat

structure SearchWorld where
  tt : TranspositionTable
  running : Bool
  info_nodes : Int

def inc_pos_cnt (zobrist : Nat → Nat) (cnt : Nat → Int) (pos : Position) : Nat → Int :=
  let key := hash_pos zobrist pos % POS_CNT_TABLE_LEN
  fun k => if k = key then cnt k + 1 else cnt k

def dec_pos_cnt (zobrist : Nat → Nat) (cnt : Nat → Int) (pos : Position) : Nat → Int :=
  let key := hash_pos zobrist pos % POS_CNT_TABLE_LEN
  fun k => if k = key then cnt k - 1 else cnt k

def init_pos_cnt_aux (zobrist : Nat → Nat) :
    List Nat → Position → (Nat → Int) → (Nat → Int)
  | [], _, cnt => cnt
  | m :: rest, prev_pos, cnt =>
    let prev_pos := undo_move prev_pos m
    init_pos_cnt_aux zobrist rest prev_pos (inc_pos_cnt zobrist cnt prev_pos)

/-- `init_pos_cnt_table` from search.c: walk the pre-search moves
backwards and count each prior position.  When num_moves is 0 the C
function returns before the memset, leaving the stack array uninitialized;
those contents are the `uninit` argument. -/
def init_pos_cnt_table (zobrist : Nat → Nat) (uninit : Nat → Int) (pos : Position)
    (moves : List Nat) : Nat → Int :=
  if moves.length = 0 then uninit
  else init_pos_cnt_aux zobrist moves.reverse pos (fun _ => 0)

def get_ply_move (ply : Int) (data : SearchData) (params : SearchParams) : Nat :=
  if ply < 0 then
    let idx := ply + params.moves.length
    if 0 ≤ idx ∧ idx < params.moves.length then params.moves.getD idx.toNat 0 else 0
  else data.move_made ply.toNat

def repeatedAux (data : SearchData) (params : SearchParams) :
    Nat → Int → Position → Bool
  | 0, _, _ => false
  | fuel + 1, ply, prev_pos =>
    let move := get_ply_move ply data params
    if move = 0 then false
    else
      let prev_pos := undo_move prev_pos move
      let ply := ply - 1
      let move := get_ply_move ply data params
      if move = 0 then false
      else
        let piece := get_piece_at prev_pos (get_move_origin move)
        if !move_is_quiet move || move_is_castling move ||
           get_piece_type piece = PIECE_TYPE_PAWN then false
        else
          let prev_pos := undo_move prev_pos move
          if pos_equal data.pos prev_pos then true
          else repeatedAux data params fuel (ply - 1) prev_pos

/-- `repeated` from search.c.  Each pass of the C loop walks two plies
back, so the structural bound on the walk is never reached. -/
def repeated (data : SearchData) (params : SearchParams) : Bool :=
  let hash := hash_pos params.zobrist data.pos
  let key := hash % POS_CNT_TABLE_LEN
  if data.pos_cnt key ≤ 1 then false
  else repeatedAux data params (data.ply + params.moves.length + 2).toNat data.ply data.pos

def store_killer (killers : List Nat) (move : Nat) : List Nat :=
  if killers.contains move then killers
  else move :: killers.dropLast

def is_killer (move : Nat) (killers : List Nat) : Bool :=
  killers.any fun killer => killer ≠ 0 && move = killer

/-- `get_next_move` from search.c, returning an index into the move list.
The C first loop probes the transposition table once per iteration with
the unchanging position; the probe is hoisted out of the loop here. -/
def get_next_move (zobrist : Nat → Nat) (tt : TranspositionTable) (moves : List Nat)
    (killers : List Nat) (pos : Position) : Nat :=
  let tt_best : Option Nat :=
    match get_tt_entry zobrist tt pos with
    | some pos_data =>
      if pos_data.ntype = NODE_TYPE_EXACT then some pos_data.best_move else none
    | none => none
  let from_tt : Option Nat :=
    match tt_best with
    | some best => moves.findIdx? fun m => m = best
    | none => none
  match from_tt with
  | some i => i
  | none =>
    (moves.foldl (fun (st : Int × Nat × Nat) m =>
      let score :=
        if is_killer m killers then 600 + evaluate_move m pos
        else if move_is_capture m then 300 + evaluate_move m pos
        else evaluate_move m pos
      if score > st.1 then (score, st.2.2, st.2.2 + 1)
      else (st.1, st.2.1, st.2.2 + 1)) (-INF, 0, 0)).2.1

def get_next_qmove_aux (tt_best : Option Nat) (pos : Position) :
    List Nat → Nat → Int → Nat → Nat × Bool
  | [], _, best_score, best_idx => (best_idx, best_score = -INF)
  | m :: rest, i, best_score, best_idx =>
    if ¬move_is_capture m then
      get_next_qmove_aux tt_best pos rest (i + 1) best_score best_idx
    else if tt_best = some m then (i, false)
    else
      let score := evaluate_move m pos
      if score > best_score then get_next_qmove_aux tt_best pos rest (i + 1) score i
      else get_next_qmove_aux tt_best pos rest (i + 1) best_score best_idx

/-- `get_next_qmove` from search.c: index of the most promising capture in
the list, and whether no capture remains (`*ended`). -/
def get_next_qmove (zobrist : Nat → Nat) (tt : TranspositionTable) (moves : List Nat)
    (pos : Position) : Nat × Bool :=
  let tt_best : Option Nat :=
    match get_tt_entry zobrist tt pos with
    | some pos_data =>
      if pos_data.ntype = NODE_TYPE_EXACT then some pos_data.best_move else none
    | none => none
  get_next_qmove_aux tt_best pos moves 0 (-INF) 0

def is_in_check (pos : Position) : Bool :=
  let c := get_side_to_move pos
  is_square_attacked (get_king_square pos c) (opp c) pos

def has_legal_moves (moves : List Nat) (pos : Position) : Bool :=
  moves.any fun m => move_is_legal pos m

def is_zugzwang_likely (pos : Position) : Bool :=
  let color := get_side_to_move pos
  let color_bb := get_color_bitboard pos color
  let pawn_bb := get_piece_bitboard pos (create_piece PIECE_TYPE_PAWN color)
  let king_bb := get_piece_bitboard pos (create_piece PIECE_TYPE_KING color)
  color_bb &&& (pawn_bb ||| king_bb) = color_bb

/-- State of the lazy-selection-sort move loops of qsearch and negamax.
`processed` are the slots already fixed by the selection sort, so the
mutated C array is `processed ++ remaining` at every iteration. -/
structure MoveLoopState where
  alpha : Int
  best_score : Int
  best_move : Nat
  ntype : Nat
  has_legal : Bool
  processed : List Nat
  remaining : List Nat
  data : SearchData
  world : SearchWorld

/-- The qsearch move loop.  `qs` is the recursive quiescence call at the
enclosing fuel; the counter mirrors `len - i`. -/
def qsearch_loop
    (qs : Int → Int → Int → SearchData → SearchWorld → Int × SearchData × SearchWorld)
    (depth beta : Int) (params : SearchParams) :
    Nat → MoveLoopState → MoveLoopState
  | 0, st => st
  | n + 1, st =>
    match st.remaining with
    | [] => st
    | m0 :: _ =>
      let (idx, ended) := get_next_qmove params.zobrist st.world.tt st.remaining st.data.pos
      if ended ∧ ¬st.has_legal then
        { st with has_legal := has_legal_moves st.remaining st.data.pos }
      else if ended then st
      else
        let most_promising := st.remaining.getD idx 0
        let swapped := st.remaining.set idx m0
        let st := { st with processed := st.processed ++ [most_promising],
                            remaining := swapped.tail }
        let move := most_promising
        let st := if move_is_legal st.data.pos move then { st with has_legal := true }
                  else st
        if ¬move_is_legal st.data.pos move ∨ ¬move_is_capture move then
          qsearch_loop qs depth beta params n st
        else
          let data := st.data
          let child := do_move data.pos move
          let data := { data with
            pos := child,
            pos_cnt := inc_pos_cnt params.zobrist data.pos_cnt child,
            ply := data.ply + 1 }
          let data := { data with move_made :=
            fun k => if k = data.ply.toNat then move else data.move_made k }
          let (score0, data, world) := qs (depth - 1) (-beta) (-st.alpha) data st.world
          let score := -score0
          let data := { data with pos_cnt := dec_pos_cnt params.zobrist data.pos_cnt data.pos }
          let data := { data with pos := undo_move data.pos move, ply := data.ply - 1 }
          let st := { st with data := data, world := world }
          let st :=
            if score > st.best_score then
              let st := { st with best_score := score, best_move := move }
              if score > st.alpha then
                { st with alpha := st.best_score, ntype := NODE_TYPE_EXACT }
              else st
            else st
          if st.alpha ≥ beta then { st with ntype := NODE_TYPE_CUT }
          else qsearch_loop qs depth beta params n st

/-- `qsearch` from search.c.  The recursion is structural over a fuel that
the C runtime recursion (bounded by the MAX_PLY cutoff at the head of
every call) never exhausts when started at `search_fuel`. -/
def qsearch :
    Nat → Int → Int → Int → SearchData → SearchWorld → SearchParams →
    Int × SearchData × SearchWorld
  | 0, _, alpha, _, data, world, _ => (alpha, data, world)
  | fuel + 1, depth, alpha, beta, data, world, params =>
    let world := if data.nodes ≥ params.nodes ∨ data.ply > MAX_PLY then
        { world with running := false } else world
    if ¬world.running ∨ data.nodes ≥ params.nodes then (alpha, data, world)
    else
      let data := { data with nodes := data.nodes + 1 }
      let world := { world with info_nodes := world.info_nodes + 1 }
      if repeated data params then (0, data, world)
      else
        let tt_hit : Option Int :=
          match get_tt_entry params.zobrist world.tt data.pos with
          | some pos_data =>
            if (pos_data.depth : Int) ≥ depth then
              let score := ttscore_to_score pos_data.score data.ply
              if pos_data.ntype = NODE_TYPE_EXACT ∨
                 (pos_data.ntype = NODE_TYPE_CUT ∧ score ≥ beta) ∨
                 (pos_data.ntype = NODE_TYPE_ALPHA_UNCHANGED ∧ score ≤ alpha)
              then some score else none
            else none
          | none => none
        match tt_hit with
        | some score => (score, data, world)
        | none =>
          let best_score := evaluate data.pos
          if best_score ≥ beta ∧ ¬is_in_check data.pos then (best_score, data, world)
          else
            let alpha := if best_score > alpha then best_score else alpha
            let moves := pseudo_legal_move_list data.pos
            let st : MoveLoopState :=
              { alpha := alpha, best_score := best_score, best_move := 0,
                ntype := NODE_TYPE_ALPHA_UNCHANGED, has_legal := false,
                processed := [], remaining := moves, data := data, world := world }
            let st := qsearch_loop (fun d a b dt w => qsearch fuel d a b dt w params)
              depth beta params moves.length st
            let best_move :=
              if st.best_move = 0 ∧ st.has_legal then (st.processed ++ st.remaining).headD 0
              else st.best_move
            let best_score :=
              if ¬st.has_legal then
                if is_in_check st.data.pos then -INF + st.data.ply else 0
              else st.best_score
            let world :=
              if st.world.running then
                { st.world with
                  tt := store_tt_entry st.world.tt
                    (init_tt_entry params.zobrist (score_to_ttscore best_score st.data.ply)
                      depth st.ntype best_move st.data.pos) }
              else st.world
            (best_score, st.data, world)

/-- The negamax move loop.  `ng` is the recursive negamax call at the
enclosing fuel; futility and reverse-futility prunes return early from
negamax, carried as the `some` component of the result. -/
def negamax_loop
    (ng : Int → Int → Int → SearchData → SearchWorld → Int × SearchData × SearchWorld)
    (depth beta eval : Int) (in_check : Bool) (params : SearchParams) :
    Nat → MoveLoopState → Option Int × MoveLoopState
  | 0, st => (none, st)
  | n + 1, st =>
    match st.remaining with
    | [] => (none, st)
    | m0 :: _ =>
      let idx := get_next_move params.zobrist st.world.tt st.remaining
        (st.data.killers depth.toNat) st.data.pos
      let most_promising := st.remaining.getD idx 0
      let swapped := st.remaining.set idx m0
      let st := { st with processed := st.processed ++ [most_promising],
                          remaining := swapped.tail }
      let move := most_promising
      if ¬move_is_legal st.data.pos move then
        negamax_loop ng depth beta eval in_check params n st
      else
        let st := { st with has_legal := true }
        if move_is_quiet move ∧ ¬in_check ∧
           |st.alpha| < INF - MAX_PLY ∧ |beta| < INF - MAX_PLY ∧
           eval + 175 * depth ≤ st.alpha then
          (some eval, st)
        else if move_is_quiet move ∧ ¬in_check ∧
           |st.alpha| < INF - MAX_PLY ∧ |beta| < INF - MAX_PLY ∧
           eval - 175 * depth ≥ beta then
          (some (eval - 175 * depth), st)
        else
          let data := st.data
          let child := do_move data.pos move
          let data := { data with
            pos := child,
            pos_cnt := inc_pos_cnt params.zobrist data.pos_cnt child,
            ply := data.ply + 1 }
          let data := { data with move_made :=
            fun k => if k = data.ply.toNat then move else data.move_made k }
          let (score0, data, world) := ng (depth - 1) (-beta) (-st.alpha) data st.world
          let score := -score0
          let data := { data with pos_cnt := dec_pos_cnt params.zobrist data.pos_cnt data.pos }
          let data := { data with pos := undo_move data.pos move, ply := data.ply - 1 }
          let st := { st with data := data, world := world }
          let st :=
            if score > st.best_score then
              let st := { st with best_score := score, best_move := move }
              if score > st.alpha then
                { st with alpha := st.best_score, ntype := NODE_TYPE_EXACT }
              else st
            else st
          if st.alpha ≥ beta then
            let st :=
              if ¬move_is_capture move then
                { st with
                  data := { st.data with
                    killers := fun k =>
                      if k = depth.toNat then
                        store_killer (st.data.killers depth.toNat) move
                      else st.data.killers k } }
              else st
            (none, { st with ntype := NODE_TYPE_CUT })
          else negamax_loop ng depth beta eval in_check params n st

/-- `negamax` from search.c, with the same fuel convention as `qsearch`. -/
def negamax :
    Nat → Int → Int → Int → SearchData → SearchWorld → SearchParams →
    Int × SearchData × SearchWorld
  | 0, _, alpha, _, data, world, _ => (alpha, data, world)
  | fuel + 1, depth, alpha, beta, data, world, params =>
    let world :=
      if data.nodes % 8192 = 0 ∧ params.limited_time ∧ params.time_up data.nodes then
        { world with running := false } else world
    let world := if data.nodes ≥ params.nodes ∨ data.ply > MAX_PLY then
        { world with running := false } else world
    if ¬world.running then (alpha, data, world)
    else
      let data := { data with nodes := data.nodes + 1 }
      let world := { world with info_nodes := world.info_nodes + 1 }
      if repeated data params then (0, data, world)
      else
        let tt_hit : Option Int :=
          match get_tt_entry params.zobrist world.tt data.pos with
          | some pos_data =>
            if (pos_data.depth : Int) ≥ depth then
              let score := ttscore_to_score pos_data.score data.ply
              if pos_data.ntype = NODE_TYPE_EXACT ∨
                 (pos_data.ntype = NODE_TYPE_CUT ∧ score ≥ beta) ∨
                 (pos_data.ntype = NODE_TYPE_ALPHA_UNCHANGED ∧ score ≤ alpha)
              then some score else none
            else none
          | none => none
        match tt_hit with
        | some score => (score, data, world)
        | none =>
          if depth = 0 then
            let data := { data with nodes := data.nodes - 1 }
            let world := { world with info_nodes := world.info_nodes - 1 }
            qsearch fuel depth alpha beta data world params
          else
            let in_check := is_in_check data.pos
            let null_step : Sum (Int × SearchData × SearchWorld) (SearchData × SearchWorld) :=
              if ¬in_check ∧ ¬is_zugzwang_likely data.pos ∧ depth > NULL_MOVE_REDUCTION then
                let new_depth := depth - NULL_MOVE_REDUCTION
                let data := { data with pos := do_null_move data.pos }
                let (score0, data, world) := negamax fuel new_depth (-beta) (-alpha) data world params
                let score := -score0
                let data := { data with pos := undo_null_move data.pos }
                if score ≥ beta then Sum.inl (beta, data, world) else Sum.inr (data, world)
              else Sum.inr (data, world)
            match null_step with
            | Sum.inl r => r
            | Sum.inr (data, world) =>
              let moves := pseudo_legal_move_list data.pos
              let eval := evaluate data.pos
              let st : MoveLoopState :=
                { alpha := alpha, best_score := -INF, best_move := 0,
                  ntype := NODE_TYPE_ALPHA_UNCHANGED, has_legal := false,
                  processed := [], remaining := moves, data := data, world := world }
              let (early, st) := negamax_loop
                (fun d a b dt w => negamax fuel d a b dt w params)
                depth beta eval in_check params moves.length st
              match early with
              | some v => (v, st.data, st.world)
              | none =>
                let best_move :=
                  if st.best_move = 0 ∧ st.has_legal then (st.processed ++ st.remaining).headD 0
                  else st.best_move
                let best_score :=
                  if ¬st.has_legal then
                    if is_in_check st.data.pos then -INF + st.data.ply else 0
                  else st.best_score
                let world :=
                  if st.world.running then
                    { st.world with
                      tt := store_tt_entry st.world.tt
                        (init_tt_entry params.zobrist (score_to_ttscore best_score st.data.ply)
                          depth st.ntype best_move st.data.pos) }
                  else st.world
                (best_score, st.data, world)

/-- Fuel at which the root calls enter negamax.  Recursion past MAX_PLY
plies is stopped at the head of every call and null moves add at most
depth / NULL_MOVE_REDUCTION extra frames, so the C recursion never reaches
this bound. -/
def search_fuel : Nat := 1024

structure SearchResult where
  best : Nat
  found_mate : Bool
  nodes : Int
deriving DecidableEq, Repr

def INFO_FLAG_DEPTH : Nat := 1
def INFO_FLAG_NODES : Nat := 2
def INFO_FLAG_NPS : Nat := 4
def INFO_FLAG_MATE : Nat := 8
def INFO_FLAG_TIME : Nat := 16
def INFO_FLAG_CP : Nat := 32
def INFO_FLAG_LBOUND : Nat := 64

structure Info where
  flags : Nat
  depth : Int
  cp : Int
  mate : Int
  nodes : Int
  nps : Int
  time : Int
deriving DecidableEq, Repr

structure RootLoopState where
  alpha : Int
  result : SearchResult
  data : SearchData
  world : SearchWorld

/-- The root move loop of `search`: moves are tried in generation order,
each one filtered through move_is_legal and scored by a full-window
negamax call. -/
def search_root_loop (params : SearchParams) (beta : Int) :
    List Nat → RootLoopState → RootLoopState
  | [], st => st
  | m :: rest, st =>
    let world := if st.data.nodes ≥ params.nodes then
        { st.world with running := false } else st.world
    if ¬world.running then { st with world := world }
    else
      let st := { st with world := world }
      if ¬move_is_legal st.data.pos m then search_root_loop params beta rest st
      else
        let data := st.data
        let child := do_move data.pos m
        let data := { data with
          pos := child, ply := data.ply + 1,
          pos_cnt := inc_pos_cnt params.zobrist data.pos_cnt child }
        let data := { data with move_made :=
          fun k => if k = data.ply.toNat then m else data.move_made k }
        let (score0, data, world) := negamax search_fuel (params.depth - 1) (-beta)
          (-st.alpha) data st.world params
        let score := -score0
        let data := { data with pos_cnt := dec_pos_cnt params.zobrist data.pos_cnt data.pos }
        let data := { data with ply := data.ply - 1 }
        let data := { data with pos := undo_move data.pos m }
        let st := { st with data := data, world := world }
        let st :=
          if score > st.alpha then
            { st with alpha := score, result := { st.result with best := m } }
          else st
        if params.mate ≠ 0 ∧ st.alpha ≥ INF - MAX_PLY then
          { st with result := { st.result with found_mate := true, best := m } }
        else search_root_loop params beta rest st

/-- `search` from search.c: one iteration of the iterative deepening.
Wall-clock figures (nps, time) are outside the model and reported as 0. -/
def search (params : SearchParams) (uninit_cnt : Nat → Int) (world : SearchWorld) :
    SearchResult × SearchWorld × Info :=
  let data : SearchData :=
    { ply := 0, nodes := 0, pos := params.pos,
      move_made := fun _ => 0, killers := fun _ => [0, 0],
      pos_cnt := init_pos_cnt_table params.zobrist uninit_cnt params.pos params.moves }
  let data := { data with pos_cnt := inc_pos_cnt params.zobrist data.pos_cnt data.pos }
  let world := { world with info_nodes := 0 }
  let moves := pseudo_legal_move_list params.pos
  let st : RootLoopState :=
    { alpha := -INF,
      result := { best := 0, found_mate := false, nodes := 0 },
      data := data, world := world }
  let st := search_root_loop params INF moves st
  let result : SearchResult := { st.result with nodes := st.data.nodes }
  let info : Info :=
    { flags := INFO_FLAG_DEPTH ||| INFO_FLAG_NODES ||| INFO_FLAG_NPS ||| INFO_FLAG_TIME,
      depth := params.depth, cp := st.alpha, mate := 0,
      nodes := st.world.info_nodes, nps := 0, time := 0 }
  let info :=
    if st.alpha ≥ INF - MAX_PLY then
      { info with mate := Int.tdiv (INF - st.alpha + 1) 2,
                  flags := info.flags ||| INFO_FLAG_MATE }
    else if st.alpha ≤ -INF + MAX_PLY then
      { info with mate := Int.tdiv (-(INF + st.alpha + 1)) 2,
                  flags := info.flags ||| INFO_FLAG_MATE }
    else { info with flags := info.flags ||| INFO_FLAG_CP }
  let info :=
    if ¬st.world.running then { info with flags := info.flags ||| INFO_FLAG_LBOUND }
    else info
  let result :=
    if result.best = 0 ∧ moves.length ≠ 0 then
      { result with
        best := moves.foldl
          (fun b m => if move_is_legal st.data.pos m then m else b) result.best }
    else result
  (result, st.world, info)

/-- `struct search_argument` from search.h.  The callbacks are modelled by
collecting their arguments; `uninit_best` and `uninit_cnt` stand for the
contents of the uninitialized `best_move` variable and pos_cnt array. -/
structure SearchArgument where
  pos : Position
  moves : List Nat
  infinite : Bool
  depth : Int
  mate : Int
  movestogo : Int
  perft : Nat
  nodes : Int
  time : List Int
  inc : List Int
  movetime : Int
  zobrist : Nat → Nat
  time_up : Int → Bool
  uninit_best : Nat
  uninit_cnt : Nat → Int

/-- The static `perft` wrapper in search.c: one info record carrying the
node count. -/
def perft_wrapper (depth : Nat) (pos : Position) : Info :=
  { flags := INFO_FLAG_NODES ||| INFO_FLAG_NPS, depth := 0, cp := 0, mate := 0,
    nodes := (movegen_perft pos depth : Nat), nps := 0, time := 0 }

/-- `init_params` from search.c.  The stop-time computation (wall clock
and the floating-point compute_search_time) is absorbed into the `time_up`
oracle; only the limited_time flag is derived here, exactly from the cases
of the C conditional. -/
def init_params (arg : SearchArgument) : SearchParams :=
  { pos := arg.pos, mate := arg.mate, movestogo := arg.movestogo,
    moves := arg.moves, zobrist := arg.zobrist, time_up := arg.time_up,
    depth := 1,
    nodes := if arg.infinite ∨ arg.mate ≠ 0 then LLONG_MAX else arg.nodes,
    limited_time :=
      if arg.movetime ≠ 0 then true
      else if arg.time.getD (get_side_to_move arg.pos) 0 ≠ 0 then true
      else false }

/-- The iterative-deepening loop of run_search; the counter is the number
of remaining depths up to max_depth. -/
def run_search_loop (arg : SearchArgument) :
    Nat → Int → Int → Nat → SearchWorld → List Info → Nat × SearchWorld × List Info
  | 0, _, _, best_move, world, infos => (best_move, world, infos)
  | rem + 1, depth, nodes, best_move, world, infos =>
    if nodes > 0 then
      let params := { init_params arg with depth := depth, nodes := nodes }
      let (result, world, info) := search params arg.uninit_cnt world
      let nodes := nodes - result.nodes
      let infos := infos ++ [info]
      if ¬world.running then (best_move, world, infos)
      else
        let best_move := result.best
        if params.mate ≠ 0 ∧ result.found_mate then (best_move, world, infos)
        else run_search_loop arg rem (depth + 1) nodes best_move world infos
    else (best_move, world, infos)

structure RunOutput where
  ret : Int
  bestmove_calls : List Nat
  info_calls : List Info
  world : SearchWorld

/-- `run_search` from search.c.  `bestmove_calls` collects the arguments
of the best_move_sender callback in call order and `info_calls` those of
info_sender. -/
def run_search (arg : SearchArgument) (world : SearchWorld) : RunOutput :=
  match (get_pseudo_legal_moves arg.pos).1 with
  | none => { ret := 0, bestmove_calls := [], info_calls := [], world := world }
  | some moves =>
    let st := moves.foldl (fun (st : Bool × Nat) m =>
      if move_is_legal arg.pos m then (true, m) else st) (false, arg.uninit_best)
    let has_legal := st.1
    let best_move := st.2
    if ¬has_legal ∧ is_in_check arg.pos then
      { ret := 0, bestmove_calls := [], info_calls := [], world := world }
    else if arg.perft ≠ 0 then
      { ret := 0, bestmove_calls := [], info_calls := [perft_wrapper arg.perft arg.pos],
        world := { world with running := false } }
    else
      let params := init_params arg
      let max_depth : Int :=
        if arg.infinite ∨ arg.mate ≠ 0 then MAX_DEPTH
        else if arg.depth > MAX_DEPTH then MAX_DEPTH else arg.depth
      let (best_move, world, infos) :=
        run_search_loop arg max_depth.toNat 1 params.nodes best_move world []
      { ret := 0, bestmove_calls := [best_move], info_calls := infos,
        world := { world with running := false } }

/-! ## Definitions taken from the claims, for comparison with the code,
and concrete inputs used by the witnesses below -/

/-- `evaluate` with the end-game king-pawn distance term supplied by `f`;
`evaluate` is definitionally `evaluate_kp_generic pos
(get_smallest_pawn_distance pos)`. -/
def evaluate_kp_generic (pos : Position) (f : Nat → Int) : Int :=
  let color := get_side_to_move pos
  let phase := get_phase pos
  let score : Int × Int := (0, 0)
  let score := (List.range 64).foldl (fun (score : Int × Int) sq =>
    let piece := get_piece_at pos sq
    if piece = PIECE_NONE then score
    else
      let pt := get_piece_type piece
      if get_piece_color piece = color then
        (score.1 + sq_table_mg color pt sq, score.2 + sq_table_eg color pt sq)
      else
        (score.1 - sq_table_mg (opp color) pt sq,
         score.2 - sq_table_eg (opp color) pt sq)) score
  let half_pawn := Int.tdiv (point_value.getD PIECE_TYPE_PAWN 0) 2
  let score := if has_bishop_pair pos color then
      (score.1 + half_pawn, score.2 + half_pawn) else score
  let score := if has_bishop_pair pos (opp color) then
      (score.1 - half_pawn, score.2 - half_pawn) else score
  let material := compute_material pos
  let score := (score.1 + material, score.2 + material)
  let score := (score.1, score.2 + 16 * f (opp color))
  let score := (score.1, score.2 - 16 * f color)
  Int.tdiv (score.1 * (256 - phase) + score.2 * phase) 256

/-- Chebyshev distance between two squares, as the claim words it. -/
def chebyshev_distance (a b : Nat) : Int :=
  max |(get_file a : Int) - get_file b| |(get_rank a : Int) - get_rank b|

/-- Stated from the claim: the Chebyshev distance from a side's king to its
nearest pawn.  The fold starts at 7, the largest distance two board squares
can have, so on a side with at least one pawn the result is the true
minimum. -/
def nearest_pawn_distance (pos : Position) (color : Nat) : Int :=
  let king_sq := get_king_square pos color
  let pawn_bb := get_piece_bitboard pos (create_piece PIECE_TYPE_PAWN color) &&&
                 get_color_bitboard pos color
  ((bitSquares pawn_bb).map fun sq => chebyshev_distance king_sq sq).foldl min 7

/-- Stated from the claim: the evaluation of src/src/eval.c with the
opponent piece-square value subtracted in both the middle-game and the
end-game component. -/
def evaluate_v2_spec (pos : Position) : Int :=
  let color := get_side_to_move pos
  let phase := get_phase pos
  let score : Int × Int := (0, 0)
  let score := (List.range 5).foldl (fun (score : Int × Int) pt =>
    let nb1 : Int := get_number_of_pieces pos (create_piece pt color)
    let nb2 : Int := get_number_of_pieces pos (create_piece pt (opp color))
    let tmp := point_value.getD pt 0 * (nb1 - nb2)
    (score.1 + tmp, score.2 + tmp)) score
  let score := (List.range 64).foldl (fun (score : Int × Int) sq =>
    let piece := get_piece_at pos sq
    if piece = PIECE_NONE then score
    else if get_piece_color piece = color then
      (score.1 + get_square_value piece sq true,
       score.2 + get_square_value piece sq false)
    else
      (score.1 - get_square_value piece sq true,
       score.2 - get_square_value piece sq false)) score
  Int.tdiv (score.1 * (FINAL_PHASE - phase) + score.2 * (phase - INITIAL_PHASE))
    FINAL_PHASE

/-- Stated from the claim: a side has the bishop-pair bonus when it has at
least one bishop on each color of the checkerboard coloring given by
get_square_color. -/
def has_bishop_pair_spec (pos : Position) (color : Nat) : Bool :=
  let piece_bb := get_piece_bitboard pos (create_piece PIECE_TYPE_BISHOP color)
  ((bitSquares piece_bb).any fun sq => get_square_color sq = 0) &&
  ((bitSquares piece_bb).any fun sq => get_square_color sq = 1)

/-- The C position type carries u64 bitboards; in the Nat model this is
the corresponding wellformedness bound. -/
def wf_bitboards (pos : Position) : Prop :=
  (∀ bb ∈ pos.color_bb, bb < 2 ^ 64) ∧ (∀ bb ∈ pos.type_bb, bb < 2 ^ 64)

instance (pos : Position) : Decidable (wf_bitboards pos) := by
  unfold wf_bitboards; infer_instance

/-! Concrete positions and search inputs for the witnesses. -/

/-- The checkmate example of the spec, FEN 8/8/8/8/8/6K1/6Q1/7k b - - 0 1:
Black to move is mated. -/
def checkmate_example : Position :=
  mkPosition [(7, 11), (14, 8), (22, 10)] COLOR_BLACK 0

/-- The stalemate example of the spec: Black king a8, White king c7,
White queen b6, Black to move. -/
def stalemate_example : Position :=
  mkPosition [(56, 11), (50, 10), (41, 8)] COLOR_BLACK 0

/-- FEN r3k2r/8/8/8/8/8/8/R3K2R w KQkq - 0 1, the castling test position
of the spec. -/
def castling_example : Position :=
  mkPosition [(0, 6), (4, 10), (7, 6), (56, 7), (60, 11), (63, 7)] COLOR_WHITE 0xf

/-- A position whose side to move has no pseudo-legal move at all: the
white king on a1 is boxed in by its own pawns, the doubled a- and b-file
pawn columns are each blocked by the pawn above, the pawns on the eighth
rank have no squares to move to, and no capture is available. -/
def walled_example : Position :=
  mkPosition ([(0, 10), (63, 11)] ++
    ((List.range 7).map fun r => (8 * (r + 1), 0)) ++
    ((List.range 8).map fun r => (8 * r + 1, 0))) COLOR_WHITE 0

/-- Both sides have a pawn and the black king is at Chebyshev distance 7
from its nearest pawn: black Ka8 with pawn h7, white Ke1 with pawn e2. -/
def distance7_example : Position :=
  mkPosition [(56, 11), (55, 1), (4, 10), (12, 0)] COLOR_WHITE 0

/-- White Ke1, Black Ke8 and a black pawn a7: with only kings and a pawn
the phase is 256, so the evaluation is the pure end-game score. -/
def eg_pawn_example : Position :=
  mkPosition [(4, 10), (60, 11), (48, 1)] COLOR_WHITE 0

/-- White bishops on c1 and h2, both dark squares of the checkerboard
coloring but on files of different parity. -/
def dark_bishops_example : Position :=
  mkPosition [(4, 10), (60, 11), (2, 4), (15, 4)] COLOR_WHITE 0

/-- The startpos board with full castling rights. -/
def hash_rights_a : Position :=
  mkPosition [(0, 6), (4, 10), (7, 6), (56, 7), (60, 11), (63, 7)] COLOR_WHITE 0xf

/-- The same board with white castling rights stripped (rights kq only). -/
def hash_rights_b : Position :=
  mkPosition [(0, 6), (4, 10), (7, 6), (56, 7), (60, 11), (63, 7)] COLOR_WHITE 0xc

/-- An injective-enough Zobrist table for concrete runs. -/
def zobrist_example : Nat → Nat := fun i => i + 1

def tt_example : TranspositionTable :=
  { capacity := 17, entries := fun _ => zero_node_data }

def world_example : SearchWorld :=
  { tt := tt_example, running := true, info_nodes := 0 }

def argument_for (p : Position) : SearchArgument :=
  { pos := p, moves := [], infinite := false, depth := 2, mate := 0, movestogo := 0,
    perft := 0, nodes := 1000000, time := [0, 0], inc := [0, 0], movetime := 0,
    zobrist := zobrist_example, time_up := fun _ => false, uninit_best := 999,
    uninit_cnt := fun _ => 0 }

def search_data_for (p : Position) : SearchData :=
  { ply := 0, nodes := 0, pos := p, killers := fun _ => [0, 0],
    move_made := fun _ => 0, pos_cnt := fun _ => 0 }

def search_params_for (p : Position) : SearchParams :=
  { depth := 0, mate := 0, movestogo := 0, nodes := 1000000, limited_time := false,
    time_up := fun _ => false, pos := p, moves := [], zobrist := zobrist_example }

/-! # Theorems -/

/-- C2: the claim states that `ttscore_to_score` is the exact inverse of
`score_to_ttscore` for every ply up to MAX_PLY and that non-mate scores
pass through unchanged.  The code refutes it: its second comparison reads
`score <= INF + MAX_PLY` (always true below the mate window), so at score
0 and ply 1 the round trip returns 1 and the probe side shifts a non-mate
score.  This also contradicts the comment on ttscore_to_score, which
declares it the inverse of score_to_ttscore. -/
theorem c2_ttscore_roundtrip_fails :
    ttscore_to_score (score_to_ttscore 0 1) 1 = 1 ∧
    score_to_ttscore 0 1 = 0 ∧
    ttscore_to_score 0 1 ≠ 0 := by decide

/-- C3: the claim states that hash_pos XORs the castling-rights key of the
full 4-bit rights set, distinguishing positions that differ only in
white's castling rights.  The code refutes it: the loop overwrites
`rights` instead of accumulating, so only black's nibble reaches the key
index and the two positions below, which differ exactly in white's two
castling rights, hash identically under every Zobrist table. -/
theorem c3_hash_ignores_white_castling :
    (∀ zobrist : Nat → Nat,
      hash_pos zobrist hash_rights_a = hash_pos zobrist hash_rights_b) ∧
    has_castling_right hash_rights_a COLOR_WHITE CASTLING_SIDE_KING = true ∧
    has_castling_right hash_rights_b COLOR_WHITE CASTLING_SIDE_KING = false ∧
    has_castling_right hash_rights_a COLOR_WHITE CASTLING_SIDE_QUEEN = true ∧
    has_castling_right hash_rights_b COLOR_WHITE CASTLING_SIDE_QUEEN = false ∧
    has_castling_right hash_rights_a COLOR_BLACK CASTLING_SIDE_KING =
      has_castling_right hash_rights_b COLOR_BLACK CASTLING_SIDE_KING ∧
    has_castling_right hash_rights_a COLOR_BLACK CASTLING_SIDE_QUEEN =
      has_castling_right hash_rights_b COLOR_BLACK CASTLING_SIDE_QUEEN ∧
    hash_rights_a.board = hash_rights_b.board ∧
    hash_rights_a.side_to_move = hash_rights_b.side_to_move ∧
    enpassant_possible hash_rights_a = enpassant_possible hash_rights_b := by
  refine ⟨fun zobrist => rfl, ?_⟩
  decide

/-- C5: the claim states that the opponent piece-square value is
subtracted in both evaluation components.  In the evaluate of
src/src/eval.c the end-game line of the opponent branch reads
`score.eg +=`: at the pure end-game position below (kings and one black
pawn, White to move) the code scores -143 while the claimed symmetric
subtraction gives -113. -/
theorem c5_v2_eval_adds_opponent_endgame_pst :
    evaluate_v2 eg_pawn_example = -143 ∧
    evaluate_v2_spec eg_pawn_example = -113 ∧
    evaluate_v2 eg_pawn_example ≠ evaluate_v2_spec eg_pawn_example := by decide

/-- C6: the claim states the +50 bishop-pair bonus is granted exactly when
a side has bishops on both checkerboard colors.  The masks in
has_bishop_pair are 0x5555... and 0xAAAA..., which are the even and odd
FILES, not the square colors: with white bishops on c1 and h2 (both dark
squares by get_square_color) the code grants the bonus while the claimed
condition fails. -/
theorem c6_bishop_pair_uses_file_stripes :
    has_bishop_pair dark_bishops_example COLOR_WHITE = true ∧
    has_bishop_pair_spec dark_bishops_example COLOR_WHITE = false ∧
    get_square_color 2 = 0 ∧ get_square_color 15 = 0 := by decide

/-- C10: pos_equal compares exactly side to move, the four castling
rights, en-passant availability (and square when both are set) and the
eight bitboards, ignoring the halfmove clock and the fullmove counter. -/
theorem c10_pos_equal_iff (pos1 pos2 : Position) :
    pos_equal pos1 pos2 = true ↔
      (get_side_to_move pos1 = get_side_to_move pos2 ∧
       (∀ c < 2, ∀ s < 2,
         has_castling_right pos1 c s = has_castling_right pos2 c s) ∧
       enpassant_possible pos1 = enpassant_possible pos2 ∧
       (enpassant_possible pos1 = true → enpassant_possible pos2 = true →
         get_enpassant_square pos1 = get_enpassant_square pos2) ∧
       get_color_bitboard pos1 COLOR_WHITE = get_color_bitboard pos2 COLOR_WHITE ∧
       get_color_bitboard pos1 COLOR_BLACK = get_color_bitboard pos2 COLOR_BLACK ∧
       (∀ pt < 6, type_bitboard pos1 pt = type_bitboard pos2 pt)) := by
  unfold pos_equal
  split_ifs with h1 h2 h3 h4 h5 h6 h7
  · simp only [Bool.false_eq_true, false_iff]
    intro h
    exact h1 h.1
  · simp only [Bool.false_eq_true, false_iff]
    intro h
    simp only [List.any_eq_true, List.mem_range, decide_eq_true_eq] at h2
    obtain ⟨c, hc, s, hs, hne⟩ := h2
    exact hne (by simpa using h.2.1 c hc s hs)
  · simp only [Bool.false_eq_true, false_iff]
    intro h
    exact h3 h.2.2.1
  · simp only [Bool.false_eq_true, false_iff]
    intro h
    simp only [Bool.and_eq_true, decide_eq_true_eq] at h4
    exact h4.2 (h.2.2.2.1 h4.1.1 h4.1.2)
  · simp only [Bool.false_eq_true, false_iff]
    intro h
    exact h5 h.2.2.2.2.1
  · simp only [Bool.false_eq_true, false_iff]
    intro h
    exact h6 h.2.2.2.2.2.1
  · simp only [Bool.false_eq_true, false_iff]
    intro h
    simp only [List.any_eq_true, List.mem_range, decide_eq_true_eq] at h7
    obtain ⟨pt, hpt, hne⟩ := h7
    exact hne (h.2.2.2.2.2.2 pt hpt)
  · simp only [true_iff]
    push_neg at h1 h3 h5 h6
    refine ⟨h1, ?_, h3, ?_, h5, h6, ?_⟩
    · intro c hc s hs
      by_contra hne
      exact h2 (by
        simp only [List.any_eq_true, List.mem_range, decide_eq_true_eq]
        exact ⟨c, hc, s, hs, hne⟩)
    · intro he1 he2
      by_contra hne
      exact h4 (by
        simp only [Bool.and_eq_true, decide_eq_true_eq]
        exact ⟨⟨he1, he2⟩, hne⟩)
    · intro pt hpt
      by_contra hne
      exact h7 (by
        simp only [List.any_eq_true, List.mem_range, decide_eq_true_eq]
        exact ⟨pt, hpt, hne⟩)

/-- Witness for C10 at two concrete equal positions, discharging the
right-hand side by computation. -/
theorem c10_pos_equal_iff_witness :
    pos_equal stalemate_example stalemate_example = true :=
  (c10_pos_equal_iff stalemate_example stalemate_example).mpr (by decide)

/-- C9: get_pseudo_legal_moves returns NULL (modelled `none`) rather than
an empty list exactly when the position has no pseudo-legal move, with the
output length set to 0, and run_search treats the NULL result as "no
moves": it returns 0 without invoking any callback and without touching
the shared state. -/
theorem c9_null_move_list (pos : Position) :
    ((get_pseudo_legal_moves pos).1 = none ↔ pseudo_legal_move_list pos = []) ∧
    (pseudo_legal_move_list pos = [] → get_pseudo_legal_moves pos = (none, 0)) ∧
    (∀ arg : SearchArgument, ∀ world : SearchWorld, arg.pos = pos →
      pseudo_legal_move_list pos = [] →
      run_search arg world =
        { ret := 0, bestmove_calls := [], info_calls := [], world := world }) := by
  refine ⟨?_, ?_, ?_⟩
  · unfold get_pseudo_legal_moves
    by_cases h : (pseudo_legal_move_list pos).length = 0
    · simp [h, List.length_eq_zero.mp h]
    · simp [h]
      intro habs
      exact h (by simp [habs])
  · intro h
    unfold get_pseudo_legal_moves
    simp [h]
  · intro arg world hpos h
    unfold run_search
    have hnone : (get_pseudo_legal_moves arg.pos).1 = none := by
      unfold get_pseudo_legal_moves
      simp [hpos, h]
    rw [hnone]

/-- Witness for C9: the boxed-in position has no pseudo-legal move at all,
and the theorem applies to it. -/
theorem c9_null_move_list_witness :
    get_pseudo_legal_moves walled_example = (none, 0) ∧
    run_search (argument_for walled_example) world_example =
      { ret := 0, bestmove_calls := [], info_calls := [], world := world_example } := by
  have h := c9_null_move_list walled_example
  exact ⟨h.2.1 (by decide), h.2.2 (argument_for walled_example) world_example rfl (by decide)⟩

theorem ite_lt_eq_min (t d : Int) : (if t < d then t else d) = min d t := by
  rcases lt_or_ge t d with h | h
  · rw [if_pos h, min_eq_right h.le]
  · rw [if_neg (not_lt.mpr h), min_eq_left h]

theorem ite_gt_eq_max (a b : Int) : (if a > b then a else b) = max a b := by
  rcases le_or_lt a b with h | h
  · rw [if_neg (not_lt.mpr h), max_eq_right h]
  · rw [if_pos h, max_eq_left h.le]

theorem foldl_dist_min {α : Type} (g h : α → Int) (hg : ∀ x, g x = h x) :
    ∀ (l : List α) (b : Int),
      l.foldl (fun dist x => if g x < dist then g x else dist) b =
      l.foldl (fun dist x => min dist (h x)) b := by
  intro l
  induction l with
  | nil => intro b; rfl
  | cons x l ih =>
    intro b
    simp only [List.foldl_cons]
    rw [ite_lt_eq_min, hg]
    exact ih _

theorem foldl_min_start {α : Type} (h : α → Int) :
    ∀ (l : List α) (a b : Int),
      l.foldl (fun x y => min x (h y)) (min a b) =
      min a (l.foldl (fun x y => min x (h y)) b) := by
  intro l
  induction l with
  | nil => intro a b; rfl
  | cons x l ih =>
    intro a b
    simp only [List.foldl_cons]
    rw [min_assoc, ih]

/-- The running minimum in get_smallest_pawn_distance starts at 6 and 1 is
subtracted at the end, so the function returns the 6-capped Chebyshev
distance to the nearest pawn, minus one. -/
theorem get_smallest_pawn_distance_eq (pos : Position) (color : Nat) :
    get_smallest_pawn_distance pos color =
      min 6 (nearest_pawn_distance pos color) - 1 := by
  simp only [get_smallest_pawn_distance, nearest_pawn_distance]
  rw [List.foldl_map]
  congr 1
  rw [foldl_dist_min
    (fun sq =>
      if |(get_file (get_king_square pos color) : Int) - (get_file sq : Int)| >
         |(get_rank (get_king_square pos color) : Int) - (get_rank sq : Int)| then
        |(get_file (get_king_square pos color) : Int) - (get_file sq : Int)|
      else |(get_rank (get_king_square pos color) : Int) - (get_rank sq : Int)|)
    (fun sq => chebyshev_distance (get_king_square pos color) sq)
    (fun sq => by simp only [chebyshev_distance, ite_gt_eq_max])]
  rw [show (6 : Int) = min 6 7 from by norm_num]
  rw [foldl_min_start]
  norm_num

theorem evaluate_eq_kp_generic (pos : Position) :
    evaluate pos =
      evaluate_kp_generic pos (fun c => get_smallest_pawn_distance pos c) := rfl

/-- C7 as stated is refuted: at the position below both sides have a pawn,
the black king is at Chebyshev distance 7 from its nearest pawn, and the
evaluation differs from the claimed 16-per-unit term (125 against 141)
because get_smallest_pawn_distance starts its running minimum at 6. -/
theorem c7_distance_counterexample :
    evaluate distance7_example ≠
      evaluate_kp_generic distance7_example
        (fun c => nearest_pawn_distance distance7_example c) ∧
    evaluate distance7_example = 125 ∧
    evaluate_kp_generic distance7_example
      (fun c => nearest_pawn_distance distance7_example c) = 141 ∧
    nearest_pawn_distance distance7_example COLOR_BLACK = 7 ∧
    get_piece_bitboard distance7_example (create_piece PIECE_TYPE_PAWN COLOR_WHITE) &&&
      get_color_bitboard distance7_example COLOR_WHITE ≠ 0 ∧
    get_piece_bitboard distance7_example (create_piece PIECE_TYPE_PAWN COLOR_BLACK) &&&
      get_color_bitboard distance7_example COLOR_BLACK ≠ 0 := by decide

/-- C7 (amended): for every position in which both sides have at least one
pawn the end-game component carries +16 centipawns per unit of the
Chebyshev distance from the enemy king to its nearest pawn capped at six,
and -16 per unit of the capped distance for our king; the code computes
min(6, d) - 1 on each side and the two -1 offsets cancel. -/
theorem c7_king_pawn_distance (pos : Position)
    (hw : get_piece_bitboard pos (create_piece PIECE_TYPE_PAWN COLOR_WHITE) &&&
          get_color_bitboard pos COLOR_WHITE ≠ 0)
    (hb : get_piece_bitboard pos (create_piece PIECE_TYPE_PAWN COLOR_BLACK) &&&
          get_color_bitboard pos COLOR_BLACK ≠ 0) :
    evaluate pos =
      evaluate_kp_generic pos (fun c => min 6 (nearest_pawn_distance pos c)) := by
  rw [evaluate_eq_kp_generic]
  simp only [evaluate_kp_generic, get_smallest_pawn_distance_eq]
  congr 1
  ring

/-- Witness for C7 at the distance-7 position: both sides have a pawn and
the capped identity holds there. -/
theorem c7_king_pawn_distance_witness :
    evaluate distance7_example =
      evaluate_kp_generic distance7_example
        (fun c => min 6 (nearest_pawn_distance distance7_example c)) :=
  c7_king_pawn_distance distance7_example (by decide) (by decide)

theorem findIdx?_start_lt_length {α : Type} (p : α → Bool) :
    ∀ (l : List α) (i j : Nat), List.findIdx? p l i = some j → j < i + l.length := by
  intro l
  induction l with
  | nil => intro i j h; simp [List.findIdx?] at h
  | cons x xs ih =>
    intro i j h
    rw [List.findIdx?_cons] at h
    by_cases hp : p x
    · rw [if_pos hp] at h
      simp only [Option.some.injEq] at h
      simp only [List.length_cons]
      omega
    · rw [if_neg hp] at h
      have := ih (i + 1) j h
      simp only [List.length_cons]
      omega

theorem findIdx?_lt_length {α : Type} (p : α → Bool) (l : List α) (i : Nat)
    (h : l.findIdx? p = some i) : i < l.length := by
  have := findIdx?_start_lt_length p l 0 i h
  omega

theorem foldl_best_idx_invariant {α : Type} (score : α → Int) :
    ∀ (l : List α) (bs : Int) (bi i : Nat), bi < i ∨ bi = 0 →
      ((l.foldl (fun (st : Int × Nat × Nat) m =>
        if score m > st.1 then (score m, st.2.2, st.2.2 + 1)
        else (st.1, st.2.1, st.2.2 + 1)) (bs, bi, i)).2.1 <
       (l.foldl (fun (st : Int × Nat × Nat) m =>
        if score m > st.1 then (score m, st.2.2, st.2.2 + 1)
        else (st.1, st.2.1, st.2.2 + 1)) (bs, bi, i)).2.2 ∨
       (l.foldl (fun (st : Int × Nat × Nat) m =>
        if score m > st.1 then (score m, st.2.2, st.2.2 + 1)
        else (st.1, st.2.1, st.2.2 + 1)) (bs, bi, i)).2.1 = 0) ∧
      (l.foldl (fun (st : Int × Nat × Nat) m =>
        if score m > st.1 then (score m, st.2.2, st.2.2 + 1)
        else (st.1, st.2.1, st.2.2 + 1)) (bs, bi, i)).2.2 = i + l.length := by
  intro l
  induction l with
  | nil => intro bs bi i h; exact ⟨h, rfl⟩
  | cons m rest ih =>
    intro bs bi i h
    simp only [List.foldl_cons, List.length_cons]
    by_cases hs : score m > bs
    · rw [if_pos hs]
      have := ih (score m) i (i + 1) (Or.inl (Nat.lt_succ_self i))
      exact ⟨this.1, by omega⟩
    · rw [if_neg hs]
      have := ih bs bi (i + 1) (by omega)
      exact ⟨this.1, by omega⟩

theorem score_fold_lt {α : Type} (score : α → Int) (l : List α) (h : l ≠ []) :
    (l.foldl (fun (st : Int × Nat × Nat) m =>
      if score m > st.1 then (score m, st.2.2, st.2.2 + 1)
      else (st.1, st.2.1, st.2.2 + 1)) (-INF, 0, 0)).2.1 < l.length := by
  have hinv := foldl_best_idx_invariant score l (-INF) 0 0 (Or.inr rfl)
  have hlen : 0 < l.length := List.length_pos.mpr h
  rcases hinv.1 with hlt | h0
  · have h2 := hinv.2
    omega
  · rw [h0]
    exact hlen

/-- The index get_next_move returns is always inside the list. -/
theorem get_next_move_lt_length (zobrist : Nat → Nat) (tt : TranspositionTable)
    (moves : List Nat) (killers : List Nat) (pos : Position) (h : moves ≠ []) :
    get_next_move zobrist tt moves killers pos < moves.length := by
  have hfold := score_fold_lt
    (fun m => if is_killer m killers then 600 + evaluate_move m pos
      else if move_is_capture m then 300 + evaluate_move m pos
      else evaluate_move m pos) moves h
  unfold get_next_move
  rcases htb : (match get_tt_entry zobrist tt pos with
    | some pos_data =>
      if pos_data.ntype = NODE_TYPE_EXACT then some pos_data.best_move else none
    | none => none : Option Nat) with _ | best
  · simp only [htb]
    exact hfold
  · simp only [htb]
    rcases hfi : moves.findIdx? (fun m => m = best) with _ | i
    · simp only [hfi]
      exact hfold
    · simp only [hfi]
      exact findIdx?_lt_length _ moves i hfi

theorem get_next_qmove_aux_bound (tt_best : Option Nat) (pos : Position) :
    ∀ (l : List Nat) (i : Nat) (bs : Int) (bi : Nat),
      ((bs = -INF ∧ bi = 0) ∨ bi < i) →
      (get_next_qmove_aux tt_best pos l i bs bi).2 = false →
      (get_next_qmove_aux tt_best pos l i bs bi).1 < i + l.length ∨
      (get_next_qmove_aux tt_best pos l i bs bi).1 = 0 := by
  intro l
  induction l with
  | nil =>
    intro i bs bi hinv hend
    simp only [get_next_qmove_aux, decide_eq_false_iff_not] at hend ⊢
    rcases hinv with ⟨hbs, _⟩ | hlt
    · exact absurd hbs hend
    · left
      simpa using hlt
  | cons m rest ih =>
    intro i bs bi hinv hend
    simp only [get_next_qmove_aux, List.length_cons] at hend ⊢
    by_cases hcap : move_is_capture m = true
    · rw [if_neg (by simp [hcap])] at hend ⊢
      by_cases htb : tt_best = some m
      · rw [if_pos htb] at hend ⊢
        left
        omega
      · rw [if_neg htb] at hend ⊢
        by_cases hs : evaluate_move m pos > bs
        · rw [if_pos hs] at hend ⊢
          rcases ih (i + 1) (evaluate_move m pos) i (Or.inr (Nat.lt_succ_self i)) hend
            with hlt | h0
          · left; omega
          · right; exact h0
        · rw [if_neg hs] at hend ⊢
          have hinv2 : ((bs = -INF ∧ bi = 0) ∨ bi < i + 1) := by
            rcases hinv with hl | hr
            · exact Or.inl hl
            · exact Or.inr (by omega)
          rcases ih (i + 1) bs bi hinv2 hend with hlt | h0
          · left; omega
          · right; exact h0
    · rw [if_pos (by simp [hcap])] at hend ⊢
      have hinv2 : ((bs = -INF ∧ bi = 0) ∨ bi < i + 1) := by
        rcases hinv with hl | hr
        · exact Or.inl hl
        · exact Or.inr (by omega)
      rcases ih (i + 1) bs bi hinv2 hend with hlt | h0
      · left; omega
      · right; exact h0

theorem get_next_qmove_lt_length (zobrist : Nat → Nat) (tt : TranspositionTable)
    (moves : List Nat) (pos : Position) (h : moves ≠ [])
    (hend : (get_next_qmove zobrist tt moves pos).2 = false) :
    (get_next_qmove zobrist tt moves pos).1 < moves.length := by
  unfold get_next_qmove at hend ⊢
  have hlen : 0 < moves.length := List.length_pos.mpr h
  rcases get_next_qmove_aux_bound _ pos moves 0 (-INF) 0 (Or.inl ⟨rfl, rfl⟩) hend
    with hlt | h0
  · simpa using hlt
  · rw [h0]
    exact hlen

theorem mem_of_mem_set_tail {l : List Nat} {idx x m : Nat} (hx : x ∈ l)
    (hm : m ∈ (l.set idx x).tail) : m ∈ l := by
  have h1 : m ∈ l.set idx x := by
    rcases hset : l.set idx x with _ | ⟨a, as⟩
    · rw [hset] at hm; simp at hm
    · rw [hset] at hm
      simp only [List.tail_cons] at hm
      exact List.mem_cons_of_mem a hm
  rcases List.mem_or_eq_of_mem_set h1 with h | rfl
  · exact h
  · exact hx

theorem getD_mem_of_lt {l : List Nat} {idx d : Nat} (h : idx < l.length) :
    l.getD idx d ∈ l := by
  rw [List.getD_eq_getElem l d h]
  exact List.getElem_mem h

/-- If no remaining move is legal, the negamax move loop only reorders the
list: it neither prunes, recurses nor touches the accumulators. -/
theorem negamax_loop_all_illegal
    (ng : Int → Int → Int → SearchData → SearchWorld → Int × SearchData × SearchWorld)
    (depth beta eval : Int) (in_check : Bool) (params : SearchParams) :
    ∀ (n : Nat) (alpha best_score : Int) (best_move ntype : Nat) (has_legal : Bool)
      (pr0 rem0 : List Nat) (data : SearchData) (world : SearchWorld),
      (∀ m ∈ rem0, move_is_legal data.pos m = false) →
      ∃ pr rem,
        negamax_loop ng depth beta eval in_check params n
          { alpha := alpha, best_score := best_score, best_move := best_move,
            ntype := ntype, has_legal := has_legal, processed := pr0,
            remaining := rem0, data := data, world := world } =
        (none,
          { alpha := alpha, best_score := best_score, best_move := best_move,
            ntype := ntype, has_legal := has_legal, processed := pr,
            remaining := rem, data := data, world := world }) := by
  intro n
  induction n with
  | zero =>
    intro alpha bs bm nt hl pr0 rem0 data world _
    exact ⟨pr0, rem0, rfl⟩
  | succ n ih =>
    intro alpha bs bm nt hl pr0 rem0 data world hill
    rcases rem0 with _ | ⟨m0, rest0⟩
    · exact ⟨pr0, [], rfl⟩
    · have hne : (m0 :: rest0 : List Nat) ≠ [] := by simp
      have hidx := get_next_move_lt_length params.zobrist world.tt (m0 :: rest0)
        (data.killers depth.toNat) data.pos hne
      have hmem : (m0 :: rest0).getD
          (get_next_move params.zobrist world.tt (m0 :: rest0)
            (data.killers depth.toNat) data.pos) 0 ∈ (m0 :: rest0) :=
        getD_mem_of_lt hidx
      have hillm := hill _ hmem
      have hrec := ih alpha bs bm nt hl (pr0 ++ [(m0 :: rest0).getD
          (get_next_move params.zobrist world.tt (m0 :: rest0)
            (data.killers depth.toNat) data.pos) 0])
        (((m0 :: rest0).set
          (get_next_move params.zobrist world.tt (m0 :: rest0)
            (data.killers depth.toNat) data.pos) m0).tail) data world
        (fun m hm => hill m (mem_of_mem_set_tail (List.mem_cons_self m0 rest0) hm))
      obtain ⟨pr, rem, hrec⟩ := hrec
      rw [List.getD_eq_getElem?_getD] at hillm
      refine ⟨pr, rem, ?_⟩
      simp only [negamax_loop]
      rw [if_pos (by simp [hillm])]
      exact hrec

/-- If no remaining move is legal and has_legal is still false, the
qsearch move loop likewise only reorders the list. -/
theorem qsearch_loop_all_illegal
    (qs : Int → Int → Int → SearchData → SearchWorld → Int × SearchData × SearchWorld)
    (depth beta : Int) (params : SearchParams) :
    ∀ (n : Nat) (alpha best_score : Int) (best_move ntype : Nat)
      (pr0 rem0 : List Nat) (data : SearchData) (world : SearchWorld),
      (∀ m ∈ rem0, move_is_legal data.pos m = false) →
      ∃ pr rem,
        qsearch_loop qs depth beta params n
          { alpha := alpha, best_score := best_score, best_move := best_move,
            ntype := ntype, has_legal := false, processed := pr0,
            remaining := rem0, data := data, world := world } =
          { alpha := alpha, best_score := best_score, best_move := best_move,
            ntype := ntype, has_legal := false, processed := pr,
            remaining := rem, data := data, world := world } := by
  intro n
  induction n with
  | zero =>
    intro alpha bs bm nt pr0 rem0 data world _
    exact ⟨pr0, rem0, rfl⟩
  | succ n ih =>
    intro alpha bs bm nt pr0 rem0 data world hill
    rcases rem0 with _ | ⟨m0, rest0⟩
    · exact ⟨pr0, [], rfl⟩
    · have hne : (m0 :: rest0 : List Nat) ≠ [] := by simp
      have hany : has_legal_moves (m0 :: rest0) data.pos = false := by
        unfold has_legal_moves
        rw [List.any_eq_false]
        intro m hm
        simp [hill m hm]
      rcases hqm : get_next_qmove params.zobrist world.tt (m0 :: rest0) data.pos
        with ⟨idx, ended⟩
      rcases hcase : ended with _ | _
      · -- ended = false: one illegal move is consumed
        subst hcase
        have hidx : idx < (m0 :: rest0).length := by
          have := get_next_qmove_lt_length params.zobrist world.tt (m0 :: rest0)
            data.pos hne (by rw [hqm])
          rwa [hqm] at this
        have hmem : (m0 :: rest0).getD idx 0 ∈ (m0 :: rest0) := getD_mem_of_lt hidx
        have hillm := hill _ hmem
        have hrec := ih alpha bs bm nt (pr0 ++ [(m0 :: rest0).getD idx 0])
          (((m0 :: rest0).set idx m0).tail) data world
          (fun m hm => hill m (mem_of_mem_set_tail (List.mem_cons_self m0 rest0) hm))
        obtain ⟨pr, rem, hrec⟩ := hrec
        rw [List.getD_eq_getElem?_getD] at hillm
        refine ⟨pr, rem, ?_⟩
        simp only [qsearch_loop, hqm]
        rw [if_neg (by simp), if_neg (by simp)]
        rw [if_pos (Or.inl (by simp [hillm]))]
        rw [if_neg (by simp [hillm])]
        exact hrec
      · -- ended = true with has_legal false: the loop stops
        subst hcase
        refine ⟨pr0, m0 :: rest0, ?_⟩
        simp only [qsearch_loop, hqm]
        rw [if_pos (by simp)]
        simp [hany]

/-- `get_ply_move` never reads the node counter. -/
theorem get_ply_move_nodes (x ply : Int) (data : SearchData) (params : SearchParams) :
    get_ply_move ply { data with nodes := x } params = get_ply_move ply data params := rfl

/-- The repetition walk never reads the node counter. -/
theorem repeatedAux_nodes (x : Int) (data : SearchData) (params : SearchParams) :
    ∀ (fuel : Nat) (ply : Int) (prev_pos : Position),
      repeatedAux { data with nodes := x } params fuel ply prev_pos =
        repeatedAux data params fuel ply prev_pos := by
  intro fuel
  induction fuel with
  | zero => intro ply prev_pos; rfl
  | succ n ih =>
    intro ply prev_pos
    simp only [repeatedAux, get_ply_move_nodes, ih]

/-- `repeated` never reads the node counter. -/
theorem repeated_nodes (x : Int) (data : SearchData) (params : SearchParams) :
    repeated { data with nodes := x } params = repeated data params := by
  simp only [repeated, repeatedAux_nodes]

/-- C4: in a position where the side to move has no legal move, negamax
returns `-INF + ply` when in check and 0 otherwise — provided the node is
actually scored by the no-legal-move epilogue: the worker is running and
inside its limits, the position is not scored as a repetition or a
transposition-table hit, negamax is called at depth ≥ 1 and the null-move
branch is off (in check, zugzwang-likely, or depth ≤ NULL_MOVE_REDUCTION),
and — the correction to the claim — qsearch additionally requires being in
check or a stand-pat evaluation below beta, for otherwise it returns the
static evaluation, not the checkmate/stalemate score. -/
theorem c4_no_legal_move_terminal
    (fuel : Nat) (depth alpha beta : Int) (data : SearchData)
    (world : SearchWorld) (params : SearchParams)
    (hrun : world.running = true)
    (hnodes : data.nodes < params.nodes)
    (hply : data.ply ≤ MAX_PLY)
    (hlim : params.limited_time = false)
    (hrep : repeated data params = false)
    (htt : get_tt_entry params.zobrist world.tt data.pos = none)
    (hnl : ∀ m ∈ pseudo_legal_move_list data.pos, move_is_legal data.pos m = false) :
    (1 ≤ depth →
      (is_in_check data.pos = true ∨ is_zugzwang_likely data.pos = true ∨
        depth ≤ NULL_MOVE_REDUCTION) →
      (negamax (fuel + 1) depth alpha beta data world params).1 =
        if is_in_check data.pos then -INF + data.ply else 0) ∧
    ((is_in_check data.pos = true ∨ evaluate data.pos < beta) →
      (qsearch (fuel + 1) depth alpha beta data world params).1 =
        if is_in_check data.pos then -INF + data.ply else 0) := by
  have hge : ¬data.nodes ≥ params.nodes := not_le.mpr hnodes
  have hplt : ¬data.ply > MAX_PLY := not_lt.mpr hply
  have hrep' : repeated { data with nodes := data.nodes + 1 } params = false := by
    rw [repeated_nodes]; exact hrep
  refine ⟨fun hd hguard => ?_, fun hsp => ?_⟩
  · have hd0 : ¬depth = 0 := by omega
    have hns : ¬(¬is_in_check data.pos = true ∧ ¬is_zugzwang_likely data.pos = true ∧
        depth > NULL_MOVE_REDUCTION) := by
      rcases hguard with h | h | h
      · simp [h]
      · simp [h]
      · exact fun hcon => absurd hcon.2.2 (not_lt.mpr h)
    obtain ⟨pr, rem, hloop⟩ := negamax_loop_all_illegal
      (fun d a b dt w => negamax fuel d a b dt w params) depth beta
      (evaluate data.pos) (is_in_check data.pos) params
      (pseudo_legal_move_list data.pos).length alpha (-INF) 0
      NODE_TYPE_ALPHA_UNCHANGED false []
      (pseudo_legal_move_list data.pos)
      { data with nodes := data.nodes + 1 }
      { tt := world.tt, running := true, info_nodes := world.info_nodes + 1 }
      hnl
    simp only [negamax, hlim, hge, hplt, hrun, hrep', htt, hd0, hns,
      Bool.false_eq_true, false_and, and_false, or_self, not_true,
      eq_self_iff_true, if_false, ite_false, or_false, false_or,
      if_true, ite_true]
    rw [hloop]
    simp
  · have hsp' : ¬(evaluate data.pos ≥ beta ∧ ¬is_in_check data.pos = true) := by
      rcases hsp with h | h
      · exact fun hcon => hcon.2 h
      · exact fun hcon => absurd hcon.1 (not_le.mpr h)
    obtain ⟨pr, rem, hloop⟩ := qsearch_loop_all_illegal
      (fun d a b dt w => qsearch fuel d a b dt w params) depth beta params
      (pseudo_legal_move_list data.pos).length
      (if evaluate data.pos > alpha then evaluate data.pos else alpha)
      (evaluate data.pos) 0 NODE_TYPE_ALPHA_UNCHANGED []
      (pseudo_legal_move_list data.pos)
      { data with nodes := data.nodes + 1 }
      { tt := world.tt, running := true, info_nodes := world.info_nodes + 1 }
      hnl
    simp only [qsearch, hge, hplt, hrun, hrep', htt, hsp',
      Bool.false_eq_true, false_and, and_false, or_self, not_true,
      eq_self_iff_true, if_false, ite_false, or_false, false_or,
      if_true, ite_true]
    rw [hloop]
    simp

/-- C4 counterexample to the unrestricted claim: `stalemate_example` has
no legal move and its side to move is not in check, yet with a window
below the stand-pat score qsearch returns the static evaluation -1057
rather than the stalemate score 0. -/
theorem c4_qsearch_standpat_counterexample :
    (∀ m ∈ pseudo_legal_move_list stalemate_example,
      move_is_legal stalemate_example m = false) ∧
    is_in_check stalemate_example = false ∧
    (qsearch 10 0 (-32767) (-30000) (search_data_for stalemate_example) world_example
      (search_params_for stalemate_example)).1 = -1057 ∧
    (qsearch 10 0 (-32767) (-30000) (search_data_for stalemate_example) world_example
      (search_params_for stalemate_example)).1 ≠ 0 := by decide

/-- C4 witness: the corrected statement applied to the stalemate example
with a full window yields the stalemate score 0 from both searches. -/
theorem c4_no_legal_move_terminal_witness :
    (negamax 10 1 (-32767) 32767 (search_data_for stalemate_example) world_example
      (search_params_for stalemate_example)).1 = 0 ∧
    (qsearch 10 1 (-32767) 32767 (search_data_for stalemate_example) world_example
      (search_params_for stalemate_example)).1 = 0 := by
  have h := c4_no_legal_move_terminal 9 1 (-32767) 32767
    (search_data_for stalemate_example) world_example
    (search_params_for stalemate_example)
    (by decide) (by decide) (by decide) (by decide) (by decide) (by decide)
    (by decide)
  refine ⟨?_, ?_⟩
  · rw [h.1 (by decide) (Or.inr (Or.inr (by decide)))]
    decide
  · rw [h.2 (Or.inr (by decide))]
    decide

/-- The has_legal scan at the top of run_search computes exactly
`has_legal_moves` in its first component. -/
theorem foldl_has_legal (pos : Position) :
    ∀ (moves : List Nat) (st : Bool × Nat),
      (moves.foldl (fun (st : Bool × Nat) m =>
        if move_is_legal pos m then (true, m) else st) st).1 =
      (st.1 || moves.any fun m => move_is_legal pos m) := by
  intro moves
  induction moves with
  | nil => intro st; simp
  | cons m rest ih =>
    intro st
    simp only [List.foldl_cons, List.any_cons]
    cases hb : move_is_legal pos m
    · rw [if_neg (by simp [hb]), ih]
      simp
    · rw [if_pos (by simp [hb]), ih]
      simp

/-- The legal-move fallback fold in `search` keeps its accumulator when
every move is illegal. -/
theorem foldl_pick_no_legal (pos : Position) :
    ∀ (moves : List Nat) (b : Nat),
      (∀ m ∈ moves, move_is_legal pos m = false) →
      moves.foldl (fun b m => if move_is_legal pos m then m else b) b = b := by
  intro moves
  induction moves with
  | nil => intro b _; rfl
  | cons m rest ih =>
    intro b hill
    simp only [List.foldl_cons]
    rw [if_neg (by simp [hill m (List.mem_cons_self m rest)])]
    exact ih b fun x hx => hill x (List.mem_cons_of_mem m hx)

/-- When every root move is illegal, the root loop of `search` is the
identity on its state. -/
theorem search_root_loop_all_illegal (params : SearchParams) (beta : Int) :
    ∀ (moves : List Nat) (st : RootLoopState),
      (∀ m ∈ moves, move_is_legal st.data.pos m = false) →
      st.data.nodes < params.nodes → st.world.running = true →
      search_root_loop params beta moves st = st := by
  intro moves
  induction moves with
  | nil => intro st _ _ _; rfl
  | cons m rest ih =>
    intro st hill hnodes hrun
    simp only [search_root_loop]
    rw [if_neg (not_le.mpr hnodes)]
    rw [if_neg (by simp [hrun])]
    rw [if_pos (by simp [hill m (List.mem_cons_self m rest)])]
    exact ih st (fun x hx => hill x (List.mem_cons_of_mem m hx)) hnodes hrun

/-- When the root position has no legal move, one `search` iteration
scores nothing: it reports best move 0, no mate, zero nodes, and leaves
the world untouched apart from resetting the info node counter. -/
theorem search_no_legal (params : SearchParams) (uninit : Nat → Int)
    (world : SearchWorld)
    (hnl : ∀ m ∈ pseudo_legal_move_list params.pos,
      move_is_legal params.pos m = false)
    (hn : 0 < params.nodes) (hrun : world.running = true) :
    ∃ info, search params uninit world =
      ({ best := 0, found_mate := false, nodes := 0 },
       { world with info_nodes := 0 }, info) :=
  ⟨_, by
    simp only [search]
    rw [search_root_loop_all_illegal params INF (pseudo_legal_move_list params.pos)
      _ (by exact hnl) (by exact hn) (by exact hrun)]
    rw [foldl_pick_no_legal params.pos (pseudo_legal_move_list params.pos)
      _ (by exact hnl)]
    refine congrArg₂ Prod.mk ?_ (congrArg₂ Prod.mk rfl rfl)
    simp⟩

/-- With no legal move at the root, every pass of the iterative-deepening
loop sets the running best move to 0. -/
theorem run_search_loop_no_legal (arg : SearchArgument)
    (hnl : ∀ m ∈ pseudo_legal_move_list arg.pos, move_is_legal arg.pos m = false)
    (hmate : arg.mate = 0) :
    ∀ (n : Nat) (depth nodes : Int) (best : Nat) (world : SearchWorld)
      (infos : List Info),
      0 < nodes → world.running = true →
      (run_search_loop arg n depth nodes best world infos).1 =
        if n = 0 then best else 0 := by
  intro n
  induction n with
  | zero => intro depth nodes best world infos _ _; rfl
  | succ k ih =>
    intro depth nodes best world infos hn hrun
    obtain ⟨info, hsearch⟩ := search_no_legal
      { init_params arg with depth := depth, nodes := nodes } arg.uninit_cnt world
      hnl hn hrun
    simp only [run_search_loop]
    rw [if_pos hn, hsearch]
    simp only [hrun, init_params, hmate]
    rw [if_neg (by simp [hrun])]
    rw [if_neg (by simp)]
    rw [ih (depth + 1) (nodes - 0) 0
      { tt := world.tt, running := true, info_nodes := 0 } (infos ++ [info])
      (by omega) rfl]
    simp

/-- C1: corrected.  With perft off and at least one pseudo-legal root
move, run_search calls best_move_sender exactly once whenever a legal
move exists or the side to move is not in check, and in the stalemate
case the move sent is 0; but at a checkmated root — contrary to the
claim — it returns without invoking the callback at all. -/
theorem c1_run_search_bestmove (arg : SearchArgument) (world : SearchWorld)
    (hperft : arg.perft = 0)
    (hne : pseudo_legal_move_list arg.pos ≠ []) :
    ((has_legal_moves (pseudo_legal_move_list arg.pos) arg.pos = true ∨
      is_in_check arg.pos = false) →
      (run_search arg world).bestmove_calls.length = 1) ∧
    (has_legal_moves (pseudo_legal_move_list arg.pos) arg.pos = false →
      is_in_check arg.pos = true →
      (run_search arg world).bestmove_calls = []) ∧
    (has_legal_moves (pseudo_legal_move_list arg.pos) arg.pos = false →
      is_in_check arg.pos = false →
      world.running = true → arg.mate = 0 → 0 < arg.nodes → 1 ≤ arg.depth →
      (run_search arg world).bestmove_calls = [0]) := by
  have hsome : get_pseudo_legal_moves arg.pos =
      (some (pseudo_legal_move_list arg.pos),
       (pseudo_legal_move_list arg.pos).length) := by
    unfold get_pseudo_legal_moves
    rw [if_neg (by simpa [List.length_eq_zero] using hne)]
  refine ⟨fun hcase => ?_, fun hnol hchk => ?_, fun hnol hchk hrun hmate hn0 hd => ?_⟩
  · simp only [run_search, hsome]
    rw [if_neg ?hc]
    case hc =>
      rw [foldl_has_legal]
      rcases hcase with h | h
      · unfold has_legal_moves at h
        simp [h]
      · simp [h]
    rw [if_neg (by simp [hperft])]
    simp
  · simp only [run_search, hsome]
    rw [if_pos ?hc]
    case hc =>
      rw [foldl_has_legal]
      unfold has_legal_moves at hnol
      simp [hnol, hchk]
  · have hnl : ∀ m ∈ pseudo_legal_move_list arg.pos,
        move_is_legal arg.pos m = false := by
      intro m hm
      unfold has_legal_moves at hnol
      rw [List.any_eq_false] at hnol
      simpa using hnol m hm
    simp only [run_search, hsome]
    rw [if_neg (by simp [hchk])]
    rw [if_neg (by simp [hperft])]
    have hnz : (if arg.infinite ∨ arg.mate ≠ 0 then (MAX_DEPTH : Int)
        else if arg.depth > MAX_DEPTH then MAX_DEPTH else arg.depth).toNat ≠ 0 := by
      have : (1 : Int) ≤ (if arg.infinite ∨ arg.mate ≠ 0 then (MAX_DEPTH : Int)
          else if arg.depth > MAX_DEPTH then MAX_DEPTH else arg.depth) := by
        split_ifs <;> first | decide | omega
      omega
    have hloop := run_search_loop_no_legal arg hnl hmate
      (if arg.infinite ∨ arg.mate ≠ 0 then (MAX_DEPTH : Int)
       else if arg.depth > MAX_DEPTH then MAX_DEPTH else arg.depth).toNat 1
      (init_params arg).nodes
      ((pseudo_legal_move_list arg.pos).foldl
        (fun (st : Bool × Nat) m =>
          if move_is_legal arg.pos m then (true, m) else st)
        (false, arg.uninit_best)).2
      world []
      (by
        simp only [init_params]
        split_ifs
        · decide
        · exact hn0) hrun
    rw [if_neg hnz] at hloop
    rw [hloop]

/-- C1 counterexample: at the mated position the claim demands one
best_move_sender call with move 0, but run_search returns without calling
the callback. -/
theorem c1_checkmate_counterexample :
    pseudo_legal_move_list checkmate_example ≠ [] ∧
    has_legal_moves (pseudo_legal_move_list checkmate_example) checkmate_example
      = false ∧
    is_in_check checkmate_example = true ∧
    (run_search (argument_for checkmate_example) world_example).bestmove_calls
      = [] := by decide

/-! ### Bounds used by the castling claim: every square the generator
feeds into `create_move` fits in 6 bits, so the type field of an encoded
move is recovered exactly and the emitters cannot collide with the two
castling move types. -/

theorem mask64_lt (n : Nat) : mask64 n < 2 ^ 64 := Nat.mod_lt _ (by norm_num)

theorem compl64_lt {n : Nat} (h : n < 2 ^ 64) : compl64 n < 2 ^ 64 :=
  Nat.xor_lt_two_pow (by norm_num) h

theorem ls1bAux_lt : ∀ (f n : Nat), n ≠ 0 → n < 2 ^ f → ls1bAux f n < f := by
  intro f
  induction f with
  | zero => intro n h0 hlt; exact absurd (Nat.lt_one_iff.mp hlt) h0
  | succ k ih =>
    intro n h0 hlt
    simp only [ls1bAux]
    by_cases h2 : n % 2 = 1
    · rw [if_pos h2]; omega
    · rw [if_neg h2]
      have hne : n / 2 ≠ 0 := by omega
      have hl : n / 2 < 2 ^ k := by
        have hp : 2 ^ (k + 1) = 2 ^ k * 2 := Nat.pow_succ 2 k
        omega
      have := ih (n / 2) hne hl
      omega

theorem get_ls1b_lt {n : Nat} (h0 : n ≠ 0) (hlt : n < 2 ^ 64) : get_ls1b n < 64 :=
  ls1bAux_lt 64 n h0 hlt

theorem bitSquaresAux_lt : ∀ (fuel bb : Nat), bb < 2 ^ 64 →
    ∀ sq ∈ bitSquaresAux fuel bb, sq < 64 := by
  intro fuel
  induction fuel with
  | zero => intro bb _ sq hsq; simp [bitSquaresAux] at hsq
  | succ k ih =>
    intro bb hlt sq hsq
    simp only [bitSquaresAux] at hsq
    by_cases h0 : bb = 0
    · rw [if_pos h0] at hsq; simp at hsq
    · rw [if_neg h0] at hsq
      rcases List.mem_cons.mp hsq with h | h
      · exact h ▸ get_ls1b_lt h0 hlt
      · exact ih (bb &&& (bb - 1)) (lt_of_le_of_lt Nat.and_le_left hlt) sq h

theorem bitSquares_lt {bb : Nat} (h : bb < 2 ^ 64) : ∀ sq ∈ bitSquares bb, sq < 64 :=
  bitSquaresAux_lt 64 bb h

/-- With both square fields in range, the type field of an encoded move
reads back exactly. -/
theorem create_move_type (o t ty : Nat) (ho : o < 64) (ht : t < 64) :
    get_move_type (create_move o t ty) = ty := by
  unfold get_move_type create_move
  apply Nat.eq_of_testBit_eq
  intro i
  simp only [Nat.testBit_shiftRight, Nat.testBit_or, Nat.testBit_shiftLeft]
  have ho' : o.testBit (12 + i - 6) = false :=
    Nat.testBit_lt_two_pow (lt_of_lt_of_le ho
      (le_trans (by norm_num) (Nat.pow_le_pow_right (by norm_num) (by omega :
        (6 : Nat) ≤ 12 + i - 6))))
  have ht' : t.testBit (12 + i) = false :=
    Nat.testBit_lt_two_pow (lt_of_lt_of_le ht
      (le_trans (by norm_num) (Nat.pow_le_pow_right (by norm_num) (by omega :
        (6 : Nat) ≤ 12 + i))))
  simp [ho', ht', show 12 + i - 12 = i by omega]

theorem not_castling_create (o t ty : Nat) (ho : o < 64) (ht : t < 64)
    (h2 : ty ≠ MOVE_KING_CASTLE) (h3 : ty ≠ MOVE_QUEEN_CASTLE) :
    move_is_castling (create_move o t ty) = false := by
  unfold move_is_castling
  rw [create_move_type o t ty ho ht]
  simp [h2, h3]

theorem move_east_one_lt (bb : Nat) : move_east bb 1 < 2 ^ 64 := by
  simp only [move_east]
  exact lt_of_le_of_lt Nat.and_le_left (mask64_lt _)

theorem move_west_one_lt (bb : Nat) : move_west bb 1 < 2 ^ 64 := by
  simp only [move_west]
  exact lt_of_le_of_lt Nat.and_le_right (by decide)

theorem get_pawn_attacks_lt (sq c : Nat) : get_pawn_attacks sq c < 2 ^ 64 := by
  unfold get_pawn_attacks move_northeast move_northwest move_southeast move_southwest
  split_ifs
  · exact Nat.or_lt_two_pow (move_east_one_lt _) (move_west_one_lt _)
  · exact Nat.or_lt_two_pow (move_east_one_lt _) (move_west_one_lt _)

theorem get_single_push_lt (sq occ c : Nat) (hsq : sq < 64) :
    get_single_push sq occ c < 2 ^ 64 := by
  unfold get_single_push
  split_ifs
  · exact lt_of_le_of_lt Nat.and_le_left (by unfold move_north; exact mask64_lt _)
  · refine lt_of_le_of_lt Nat.and_le_left ?_
    unfold move_south
    calc (1 <<< sq) >>> (8 * 1) = (1 <<< sq) / 2 ^ (8 * 1) :=
        Nat.shiftRight_eq_div_pow _ _
    _ ≤ 1 <<< sq := Nat.div_le_self _ _
    _ = 2 ^ sq := Nat.one_shiftLeft sq
    _ < 2 ^ 64 := Nat.pow_lt_pow_right (by norm_num) hsq

theorem get_double_push_lt (sq occ c : Nat) (hsq : sq < 64) :
    get_double_push sq occ c < 2 ^ 64 := by
  unfold get_double_push
  split_ifs
  · exact lt_of_le_of_lt (le_trans Nat.and_le_left Nat.and_le_left)
      (by unfold move_north; exact mask64_lt _)
  · refine lt_of_le_of_lt (le_trans Nat.and_le_left Nat.and_le_left) ?_
    unfold move_south
    rw [Nat.shiftRight_eq_div_pow]
    exact lt_of_le_of_lt (Nat.div_le_self _ _) (get_single_push_lt sq occ c hsq)

theorem get_enpassant_square_lt (pos : Position) : get_enpassant_square pos < 64 := by
  unfold get_enpassant_square file_rank_to_square
  have h : pos.irr_top.castling_rights_and_enpassant &&& 0x70 ≤ 0x70 :=
    Nat.and_le_right
  dsimp only
  rw [Nat.shiftRight_eq_div_pow]
  have h16 : (2 : Nat) ^ 4 = 16 := by norm_num
  rw [h16]
  split_ifs <;> omega

theorem get_color_bitboard_lt (pos : Position) (hwf : wf_bitboards pos) (c : Nat) :
    get_color_bitboard pos c < 2 ^ 64 := by
  unfold get_color_bitboard
  by_cases hc : c < pos.color_bb.length
  · exact hwf.1 _ (getD_mem_of_lt hc)
  · rw [List.getD_eq_getElem?_getD, List.getElem?_eq_none (le_of_not_lt hc)]
    norm_num

theorem get_piece_bitboard_lt (pos : Position) (hwf : wf_bitboards pos) (p : Nat) :
    get_piece_bitboard pos p < 2 ^ 64 :=
  lt_of_le_of_lt Nat.and_le_right (get_color_bitboard_lt pos hwf _)

theorem no_castle_map_moves (pos : Position) (origin bb : Nat) (ho : origin < 64)
    (hbb : bb < 2 ^ 64) :
    ∀ m ∈ (bitSquares bb).map fun tosq =>
      if get_piece_at pos tosq = PIECE_NONE then create_move origin tosq MOVE_OTHER
      else create_move origin tosq MOVE_CAPTURE,
      move_is_castling m = false := by
  intro m hm
  rcases List.mem_map.mp hm with ⟨tosq, htosq, rfl⟩
  have ht : tosq < 64 := bitSquares_lt hbb tosq htosq
  by_cases hp : get_piece_at pos tosq = PIECE_NONE
  · rw [if_pos hp]
    exact not_castling_create origin tosq MOVE_OTHER ho ht (by decide) (by decide)
  · rw [if_neg hp]
    exact not_castling_create origin tosq MOVE_CAPTURE ho ht (by decide) (by decide)

theorem no_castle_add_pushes (origin occ color : Nat) (ho : origin < 64) :
    ∀ m ∈ add_pushes origin occ color, move_is_castling m = false := by
  intro m hm
  simp only [add_pushes] at hm
  by_cases h0 : get_single_push origin occ color ≠ 0
  · rw [if_pos h0] at hm
    have ht : get_ls1b (get_single_push origin occ color) < 64 :=
      get_ls1b_lt h0 (get_single_push_lt origin occ color ho)
    by_cases hpr : (color = COLOR_WHITE ∧
        get_rank (get_ls1b (get_single_push origin occ color)) = RANK_8) ∨
        (color = COLOR_BLACK ∧
         get_rank (get_ls1b (get_single_push origin occ color)) = RANK_1)
    · rw [if_pos hpr] at hm
      simp only [List.mem_cons, List.not_mem_nil, or_false] at hm
      rcases hm with rfl | rfl | rfl | rfl <;>
        exact not_castling_create _ _ _ ho ht (by decide) (by decide)
    · rw [if_neg hpr] at hm
      simp only [List.mem_cons, List.not_mem_nil, or_false] at hm
      subst hm
      exact not_castling_create _ _ _ ho ht (by decide) (by decide)
  · rw [if_neg h0] at hm
    simp at hm

theorem no_castle_add_double_pushes (origin occ color : Nat) (ho : origin < 64) :
    ∀ m ∈ add_double_pushes origin occ color, move_is_castling m = false := by
  intro m hm
  simp only [add_double_pushes] at hm
  by_cases h0 : get_double_push origin occ color ≠ 0
  · rw [if_pos h0] at hm
    simp only [List.mem_cons, List.not_mem_nil, or_false] at hm
    subst hm
    exact not_castling_create _ _ _ ho
      (get_ls1b_lt h0 (get_double_push_lt origin occ color ho)) (by decide) (by decide)
  · rw [if_neg h0] at hm
    simp at hm

theorem no_castle_add_pawn_attacks (origin enemy color : Nat) (ho : origin < 64) :
    ∀ m ∈ add_pawn_attacks origin enemy color, move_is_castling m = false := by
  intro m hm
  simp only [add_pawn_attacks] at hm
  rcases List.mem_flatMap.mp hm with ⟨tosq, htosq, hmem⟩
  have ht : tosq < 64 := bitSquares_lt
    (lt_of_le_of_lt Nat.and_le_left (get_pawn_attacks_lt origin color)) tosq htosq
  by_cases hpr : (color = COLOR_WHITE ∧ get_rank tosq = RANK_8) ∨
      (color = COLOR_BLACK ∧ get_rank tosq = RANK_1)
  · rw [if_pos hpr] at hmem
    simp only [List.mem_cons, List.not_mem_nil, or_false] at hmem
    rcases hmem with rfl | rfl | rfl | rfl <;>
      exact not_castling_create _ _ _ ho ht (by decide) (by decide)
  · rw [if_neg hpr] at hmem
    simp only [List.mem_cons, List.not_mem_nil, or_false] at hmem
    subst hmem
    exact not_castling_create _ _ _ ho ht (by decide) (by decide)

theorem no_castle_add_pawn_moves (pos : Position) (hwf : wf_bitboards pos) :
    ∀ m ∈ add_pawn_moves pos, move_is_castling m = false := by
  intro m hm
  simp only [add_pawn_moves] at hm
  rcases List.mem_append.mp hm with h | h
  · by_cases hep : enpassant_possible pos = true
    · rw [if_pos hep] at h
      rcases List.mem_map.mp h with ⟨origin, horigin, rfl⟩
      have ho : origin < 64 := bitSquares_lt
        (lt_of_le_of_lt Nat.and_le_left (get_pawn_attacks_lt _ _)) origin horigin
      exact not_castling_create _ _ _ ho (get_enpassant_square_lt pos)
        (by decide) (by decide)
    · rw [if_neg hep] at h
      simp at h
  · rcases List.mem_flatMap.mp h with ⟨origin, horigin, hmem⟩
    have ho : origin < 64 :=
      bitSquares_lt (get_piece_bitboard_lt pos hwf _) origin horigin
    rcases List.mem_append.mp hmem with h2 | h2
    · rcases List.mem_append.mp h2 with h3 | h3
      · exact no_castle_add_pushes _ _ _ ho m h3
      · exact no_castle_add_double_pushes _ _ _ ho m h3
    · exact no_castle_add_pawn_attacks _ _ _ ho m h2

theorem no_castle_add_moves_slider (pos : Position) (hwf : wf_bitboards pos)
    (pt : Nat) (h0 : ¬pt = PIECE_TYPE_PAWN) (h5 : ¬pt = PIECE_TYPE_KING) :
    ∀ m ∈ add_moves pt pos, move_is_castling m = false := by
  intro m hm
  simp only [add_moves] at hm
  rw [if_neg h0, if_neg h5] at hm
  rcases List.mem_flatMap.mp hm with ⟨origin, horigin, hmem⟩
  have ho : origin < 64 :=
    bitSquares_lt (get_piece_bitboard_lt pos hwf _) origin horigin
  exact no_castle_map_moves pos origin _ ho
    (lt_of_le_of_lt Nat.and_le_right
      (compl64_lt (lt_of_le_of_lt Nat.and_le_right (get_color_bitboard_lt pos hwf _))))
    m hmem

theorem mem_ite_singleton {α : Type} (C : Prop) [Decidable C] (x m : α) :
    (m ∈ if C then [x] else []) ↔ C ∧ m = x := by
  split_ifs with h
  · simp [h]
  · simp [h]

/-- The two nested conditionals of add_king_castling fused into one. -/
theorem add_king_castling_eq (pos : Position) :
    add_king_castling pos =
      if has_castling_right pos (get_side_to_move pos) CASTLING_SIDE_KING = true ∧
         (get_piece_at pos (if get_side_to_move pos = COLOR_WHITE then F1 else F8)
            = PIECE_NONE ∧
          get_piece_at pos (if get_side_to_move pos = COLOR_WHITE then G1 else G8)
            = PIECE_NONE ∧
          ¬is_square_attacked (if get_side_to_move pos = COLOR_WHITE then F1 else F8)
            (opp (get_side_to_move pos)) pos = true ∧
          ¬is_square_attacked (if get_side_to_move pos = COLOR_WHITE then G1 else G8)
            (opp (get_side_to_move pos)) pos = true ∧
          ¬is_square_attacked (get_king_square pos (get_side_to_move pos))
            (opp (get_side_to_move pos)) pos = true)
      then [create_move (get_king_square pos (get_side_to_move pos))
             (if get_side_to_move pos = COLOR_WHITE then G1 else G8) MOVE_KING_CASTLE]
      else [] := by
  simp only [add_king_castling]
  by_cases h1 : has_castling_right pos (get_side_to_move pos) CASTLING_SIDE_KING = true
  · rw [if_pos h1]
    by_cases h2 : get_piece_at pos (if get_side_to_move pos = COLOR_WHITE then F1 else F8)
          = PIECE_NONE ∧
        get_piece_at pos (if get_side_to_move pos = COLOR_WHITE then G1 else G8)
          = PIECE_NONE ∧
        ¬is_square_attacked (if get_side_to_move pos = COLOR_WHITE then F1 else F8)
          (opp (get_side_to_move pos)) pos = true ∧
        ¬is_square_attacked (if get_side_to_move pos = COLOR_WHITE then G1 else G8)
          (opp (get_side_to_move pos)) pos = true ∧
        ¬is_square_attacked (get_king_square pos (get_side_to_move pos))
          (opp (get_side_to_move pos)) pos = true
    · rw [if_pos h2, if_pos (⟨h1, h2⟩ : _ ∧ _)]
    · rw [if_neg h2, if_neg (fun hc => h2 hc.2)]
  · rw [if_neg h1, if_neg (fun hc => h1 hc.1)]

/-- The two nested conditionals of add_queen_castling fused into one. -/
theorem add_queen_castling_eq (pos : Position) :
    add_queen_castling pos =
      if has_castling_right pos (get_side_to_move pos) CASTLING_SIDE_QUEEN = true ∧
         (get_piece_at pos (if get_side_to_move pos = COLOR_WHITE then D1 else D8)
            = PIECE_NONE ∧
          get_piece_at pos (if get_side_to_move pos = COLOR_WHITE then C1 else C8)
            = PIECE_NONE ∧
          get_piece_at pos (if get_side_to_move pos = COLOR_WHITE then B1 else B8)
            = PIECE_NONE ∧
          ¬is_square_attacked (if get_side_to_move pos = COLOR_WHITE then D1 else D8)
            (opp (get_side_to_move pos)) pos = true ∧
          ¬is_square_attacked (if get_side_to_move pos = COLOR_WHITE then C1 else C8)
            (opp (get_side_to_move pos)) pos = true ∧
          ¬is_square_attacked (get_king_square pos (get_side_to_move pos))
            (opp (get_side_to_move pos)) pos = true)
      then [create_move (get_king_square pos (get_side_to_move pos))
             (if get_side_to_move pos = COLOR_WHITE then C1 else C8) MOVE_QUEEN_CASTLE]
      else [] := by
  simp only [add_queen_castling]
  by_cases h1 : has_castling_right pos (get_side_to_move pos) CASTLING_SIDE_QUEEN = true
  · rw [if_pos h1]
    by_cases h2 : get_piece_at pos (if get_side_to_move pos = COLOR_WHITE then D1 else D8)
          = PIECE_NONE ∧
        get_piece_at pos (if get_side_to_move pos = COLOR_WHITE then C1 else C8)
          = PIECE_NONE ∧
        get_piece_at pos (if get_side_to_move pos = COLOR_WHITE then B1 else B8)
          = PIECE_NONE ∧
        ¬is_square_attacked (if get_side_to_move pos = COLOR_WHITE then D1 else D8)
          (opp (get_side_to_move pos)) pos = true ∧
        ¬is_square_attacked (if get_side_to_move pos = COLOR_WHITE then C1 else C8)
          (opp (get_side_to_move pos)) pos = true ∧
        ¬is_square_attacked (get_king_square pos (get_side_to_move pos))
          (opp (get_side_to_move pos)) pos = true
    · rw [if_pos h2, if_pos (⟨h1, h2⟩ : _ ∧ _)]
    · rw [if_neg h2, if_neg (fun hc => h2 hc.2)]
  · rw [if_neg h1, if_neg (fun hc => h1 hc.1)]

/-- C8: the pseudo-legal move generator emits the king-side castling move
exactly when the side to move has the king-side right, F and G are empty,
and F, G and the king's square are unattacked; and the queen-side move
exactly when it has the queen-side right, D, C and B are empty, and D, C
and the king's square are unattacked — the B-file square need not be
unattacked.  Stated for positions with 64-bit bitboards and the king
square in range. -/
theorem c8_castling_emission (pos : Position) (hwf : wf_bitboards pos)
    (horig : get_king_square pos (get_side_to_move pos) < 64) :
    (create_move (get_king_square pos (get_side_to_move pos))
        (if get_side_to_move pos = COLOR_WHITE then G1 else G8) MOVE_KING_CASTLE
        ∈ pseudo_legal_move_list pos ↔
      has_castling_right pos (get_side_to_move pos) CASTLING_SIDE_KING = true ∧
      get_piece_at pos (if get_side_to_move pos = COLOR_WHITE then F1 else F8)
        = PIECE_NONE ∧
      get_piece_at pos (if get_side_to_move pos = COLOR_WHITE then G1 else G8)
        = PIECE_NONE ∧
      is_square_attacked (if get_side_to_move pos = COLOR_WHITE then F1 else F8)
        (opp (get_side_to_move pos)) pos = false ∧
      is_square_attacked (if get_side_to_move pos = COLOR_WHITE then G1 else G8)
        (opp (get_side_to_move pos)) pos = false ∧
      is_square_attacked (get_king_square pos (get_side_to_move pos))
        (opp (get_side_to_move pos)) pos = false) ∧
    (create_move (get_king_square pos (get_side_to_move pos))
        (if get_side_to_move pos = COLOR_WHITE then C1 else C8) MOVE_QUEEN_CASTLE
        ∈ pseudo_legal_move_list pos ↔
      has_castling_right pos (get_side_to_move pos) CASTLING_SIDE_QUEEN = true ∧
      get_piece_at pos (if get_side_to_move pos = COLOR_WHITE then D1 else D8)
        = PIECE_NONE ∧
      get_piece_at pos (if get_side_to_move pos = COLOR_WHITE then C1 else C8)
        = PIECE_NONE ∧
      get_piece_at pos (if get_side_to_move pos = COLOR_WHITE then B1 else B8)
        = PIECE_NONE ∧
      is_square_attacked (if get_side_to_move pos = COLOR_WHITE then D1 else D8)
        (opp (get_side_to_move pos)) pos = false ∧
      is_square_attacked (if get_side_to_move pos = COLOR_WHITE then C1 else C8)
        (opp (get_side_to_move pos)) pos = false ∧
      is_square_attacked (get_king_square pos (get_side_to_move pos))
        (opp (get_side_to_move pos)) pos = false) := by
  have htG : (if get_side_to_move pos = COLOR_WHITE then G1 else G8) < 64 := by
    split_ifs <;> decide
  have htC : (if get_side_to_move pos = COLOR_WHITE then C1 else C8) < 64 := by
    split_ifs <;> decide
  have hktail : (get_king_attacks (get_king_square pos (get_side_to_move pos)) &&&
      compl64 ((get_color_bitboard pos (get_side_to_move pos) |||
                get_color_bitboard pos (opp (get_side_to_move pos))) &&&
               get_color_bitboard pos (get_side_to_move pos))) < 2 ^ 64 :=
    lt_of_le_of_lt Nat.and_le_right
      (compl64_lt (lt_of_le_of_lt Nat.and_le_right (get_color_bitboard_lt pos hwf _)))
  constructor
  · -- king side
    have htype : move_is_castling (create_move
        (get_king_square pos (get_side_to_move pos))
        (if get_side_to_move pos = COLOR_WHITE then G1 else G8) MOVE_KING_CASTLE)
          = true := by
      unfold move_is_castling
      rw [create_move_type _ _ _ horig htG]
      decide
    constructor
    · intro hmem
      simp only [pseudo_legal_move_list, List.mem_append] at hmem
      rcases hmem with ((((h | h) | h) | h) | h) | h
      · exact absurd htype (by simp [no_castle_add_pawn_moves pos hwf _ h])
      · exact absurd htype (by simp [no_castle_add_moves_slider pos hwf
          PIECE_TYPE_KNIGHT (by decide) (by decide) _ h])
      · exact absurd htype (by simp [no_castle_add_moves_slider pos hwf
          PIECE_TYPE_ROOK (by decide) (by decide) _ h])
      · exact absurd htype (by simp [no_castle_add_moves_slider pos hwf
          PIECE_TYPE_BISHOP (by decide) (by decide) _ h])
      · exact absurd htype (by simp [no_castle_add_moves_slider pos hwf
          PIECE_TYPE_QUEEN (by decide) (by decide) _ h])
      · have h' : create_move (get_king_square pos (get_side_to_move pos))
            (if get_side_to_move pos = COLOR_WHITE then G1 else G8) MOVE_KING_CASTLE
            ∈ add_king_moves pos := h
        simp only [add_king_moves, List.mem_append] at h'
        rcases h' with (h2 | h2) | h2
        · rw [add_king_castling_eq, mem_ite_singleton] at h2
          obtain ⟨⟨hr, hf, hg, ha1, ha2, ha3⟩, _⟩ := h2
          rw [Bool.not_eq_true] at ha1 ha2 ha3
          exact ⟨hr, hf, hg, ha1, ha2, ha3⟩
        · rw [add_queen_castling_eq, mem_ite_singleton] at h2
          have hty := congrArg get_move_type h2.2
          rw [create_move_type _ _ _ horig htG,
              create_move_type _ _ _ horig htC] at hty
          exact absurd hty (by decide)
        · exact absurd htype
            (by simp [no_castle_map_moves pos _ _ horig hktail _ h2])
    · intro hcond
      obtain ⟨hr, hf, hg, ha1, ha2, ha3⟩ := hcond
      have hker : create_move (get_king_square pos (get_side_to_move pos))
          (if get_side_to_move pos = COLOR_WHITE then G1 else G8) MOVE_KING_CASTLE
          ∈ add_king_castling pos := by
        rw [add_king_castling_eq, mem_ite_singleton]
        exact ⟨⟨hr, hf, hg, by simp [ha1], by simp [ha2], by simp [ha3]⟩, rfl⟩
      simp only [pseudo_legal_move_list, List.mem_append]
      refine Or.inr ?_
      show _ ∈ add_king_moves pos
      simp only [add_king_moves, List.mem_append]
      exact Or.inl (Or.inl hker)
  · -- queen side
    have htype : move_is_castling (create_move
        (get_king_square pos (get_side_to_move pos))
        (if get_side_to_move pos = COLOR_WHITE then C1 else C8) MOVE_QUEEN_CASTLE)
          = true := by
      unfold move_is_castling
      rw [create_move_type _ _ _ horig htC]
      decide
    constructor
    · intro hmem
      simp only [pseudo_legal_move_list, List.mem_append] at hmem
      rcases hmem with ((((h | h) | h) | h) | h) | h
      · exact absurd htype (by simp [no_castle_add_pawn_moves pos hwf _ h])
      · exact absurd htype (by simp [no_castle_add_moves_slider pos hwf
          PIECE_TYPE_KNIGHT (by decide) (by decide) _ h])
      · exact absurd htype (by simp [no_castle_add_moves_slider pos hwf
          PIECE_TYPE_ROOK (by decide) (by decide) _ h])
      · exact absurd htype (by simp [no_castle_add_moves_slider pos hwf
          PIECE_TYPE_BISHOP (by decide) (by decide) _ h])
      · exact absurd htype (by simp [no_castle_add_moves_slider pos hwf
          PIECE_TYPE_QUEEN (by decide) (by decide) _ h])
      · have h' : create_move (get_king_square pos (get_side_to_move pos))
            (if get_side_to_move pos = COLOR_WHITE then C1 else C8) MOVE_QUEEN_CASTLE
            ∈ add_king_moves pos := h
        simp only [add_king_moves, List.mem_append] at h'
        rcases h' with (h2 | h2) | h2
        · rw [add_king_castling_eq, mem_ite_singleton] at h2
          have hty := congrArg get_move_type h2.2
          rw [create_move_type _ _ _ horig htC,
              create_move_type _ _ _ horig htG] at hty
          exact absurd hty (by decide)
        · rw [add_queen_castling_eq, mem_ite_singleton] at h2
          obtain ⟨⟨hr, hd, hc, hb, ha1, ha2, ha3⟩, _⟩ := h2
          rw [Bool.not_eq_true] at ha1 ha2 ha3
          exact ⟨hr, hd, hc, hb, ha1, ha2, ha3⟩
        · exact absurd htype
            (by simp [no_castle_map_moves pos _ _ horig hktail _ h2])
    · intro hcond
      obtain ⟨hr, hd, hc, hb, ha1, ha2, ha3⟩ := hcond
      have hqer : create_move (get_king_square pos (get_side_to_move pos))
          (if get_side_to_move pos = COLOR_WHITE then C1 else C8) MOVE_QUEEN_CASTLE
          ∈ add_queen_castling pos := by
        rw [add_queen_castling_eq, mem_ite_singleton]
        exact ⟨⟨hr, hd, hc, hb, by simp [ha1], by simp [ha2], by simp [ha3]⟩, rfl⟩
      simp only [pseudo_legal_move_list, List.mem_append]
      refine Or.inr ?_
      show _ ∈ add_king_moves pos
      simp only [add_king_moves, List.mem_append]
      exact Or.inl (Or.inr hqer)

/-- C8 witness: in the double-castling position r3k2r/8/8/8/8/8/8/R3K2R
with all rights, both white castling moves are emitted. -/
theorem c8_castling_emission_witness :
    create_move 4 6 MOVE_KING_CASTLE ∈ pseudo_legal_move_list castling_example ∧
    create_move 4 2 MOVE_QUEEN_CASTLE ∈ pseudo_legal_move_list castling_example := by
  have h := c8_castling_emission castling_example (by decide) (by decide)
  exact ⟨h.1.mpr (by decide), h.2.mpr (by decide)⟩

/-- C1 witness: at the stalemate example the corrected statement yields
exactly one callback invocation carrying move 0. -/
theorem c1_run_search_bestmove_witness :
    (run_search (argument_for stalemate_example) world_example).bestmove_calls
      = [0] := by
  have h := c1_run_search_bestmove (argument_for stalemate_example) world_example
    (by decide) (by decide)
  exact h.2.2 (by decide) (by decide) (by decide) (by decide) (by decide)
    (by decide)

end Athena
